import Mathlib

/-!
# Concourse Terraform provider: team and pipeline reconcilers

A shallow embedding of `concourse/resource_team.go`,
`concourse/resource_pipeline.go` and `concourse/fly_config.go`.

* A Go `error` is an `Option String`: `none` is `nil`, `some msg` carries
  the text of `err.Error()`.
* The remote client (`go-concourse`) is a record of response functions.
  Every response may depend on the list of calls issued so far, so a
  client can stand for any deterministic remote service, stateful or not.
  Each operation threads that list of calls and returns it, which makes
  the number and the arguments of the remote calls observable.
* `schema.ResourceData` is a record holding, per attribute, the value that
  `d.Get` returns and, where the code asks `d.HasChange`, the value of
  the prior state. `d.Set` with a value of the attribute's type
  overwrites the current value and is taken to succeed; an `int` offered to
  the string attribute `config_version` is refused and nothing is written.
* Go `int` is 64 bits wide.
* For `fly_config.go` the environment, the current user and the file
  system are a record of answers, a nil pointer is `none`, and a function
  either returns or panics.
-/

namespace Concourse

/-! ## Go values -/

/-- Go `error`: `none` is `nil`. -/
abbrev Error := Option String

/-- Rendering of an error by the verb `%v`. -/
def errV : Error → String
  | none => "<nil>"
  | some msg => msg

/-- Rendering of a bool by the verb `%v`. -/
def boolV (b : Bool) : String := if b then "true" else "false"

/-- Rendering of an int by the verb `%d`. -/
def intD (n : Int) : String := toString n

/-- Go string literal quoting used in the messages: `\"%s\"`. -/
def quoted (s : String) : String := "\"" ++ s ++ "\""

def minInt64 : Int := -(2 ^ 63)

def maxInt64 : Int := 2 ^ 63 - 1

/-- Two's complement wrap-around of 64-bit signed arithmetic. -/
def wrapInt64 (n : Int) : Int := (n + 2 ^ 63) % 2 ^ 64 - 2 ^ 63

/-! ## Remote entities (package `atc`) -/

/-- Go `map[string][]string`: the lists of one role, keyed by `users` and `groups`. -/
abbrev AuthRole := List (String × List String)

/-- Go `map[string]map[string][]string`: role name to its lists. -/
abbrev TeamAuth := List (String × AuthRole)

/-- The fields of `atc.Team` that the provider reads or writes. -/
structure Team where
  ID : Int
  Name : String
  Auth : TeamAuth
deriving DecidableEq, Repr

/-- The fields of `atc.Pipeline` that the provider reads. -/
structure Pipeline where
  ID : Int
  Name : String
  Paused : Bool
  Public : Bool
  TeamName : String
deriving DecidableEq, Repr

/-- One `atc.ConfigWarning`; `Typ` is its field `Type`. -/
structure ConfigWarning where
  Typ : String
  Message : String
deriving DecidableEq, Repr

/-! ## Remote calls -/

/-- One remote call together with its arguments. The first argument of a
team-scoped call is the team the client was scoped to (`Team(name)`). -/
inductive Call where
  | ListTeams
  | CreateOrUpdate (team : String) (t : Team)
  | RenameTeam (team oldName newName : String)
  | DestroyTeam (team name : String)
  | ListPipelines (team : String)
  | Pipeline (team name : String)
  | PipelineConfig (team name : String)
  | CreateOrUpdatePipelineConfig (team name version config : String) (checkOnly : Bool)
  | RenamePipeline (team oldName newName : String)
  | PausePipeline (team name : String)
  | UnpausePipeline (team name : String)
  | ExposePipeline (team name : String)
  | HidePipeline (team name : String)
  | DeletePipeline (team name : String)
deriving DecidableEq, Repr

def Call.isListPipelines : Call → Bool
  | .ListPipelines _ => true
  | _ => false

def Call.isCreateOrUpdate : Call → Bool
  | .CreateOrUpdate _ _ => true
  | _ => false

def Call.isCreateOrUpdatePipelineConfig : Call → Bool
  | .CreateOrUpdatePipelineConfig _ _ _ _ _ => true
  | _ => false

def Call.isPausePipeline : Call → Bool
  | .PausePipeline _ _ => true
  | _ => false

def Call.isUnpausePipeline : Call → Bool
  | .UnpausePipeline _ _ => true
  | _ => false

/-- The public toggle: `ExposePipeline` or `HidePipeline`. -/
def Call.isPublicToggle : Call → Bool
  | .ExposePipeline _ _ => true
  | .HidePipeline _ _ => true
  | _ => false

/-- Result of `ListTeams`. -/
structure ListTeamsRes where
  teams : List Team
  err : Error

/-- Result of `CreateOrUpdate`. -/
structure CreateOrUpdateRes where
  team : Team
  created : Bool
  updated : Bool
  err : Error

/-- Result of `RenameTeam`, `RenamePipeline`, the four toggles and `DeletePipeline`. -/
structure FlagRes where
  flag : Bool
  err : Error

/-- Result of `ListPipelines`. -/
structure ListPipelinesRes where
  pipelines : List Pipeline
  err : Error

/-- Result of `Pipeline(name)`. -/
structure PipelineRes where
  pipeline : Pipeline
  found : Bool
  err : Error

/-- Result of `PipelineConfig(name)`. -/
structure PipelineConfigRes (Cfg : Type) where
  config : Cfg
  version : String
  found : Bool
  err : Error

/-- Result of `CreateOrUpdatePipelineConfig`. -/
structure ConfigWriteRes where
  created : Bool
  updated : Bool
  warnings : List ConfigWarning
  err : Error

/-- The remote client. Each field answers one kind of call; its first
argument is the list of calls issued before this one. `Cfg` is the type of
a parsed pipeline configuration (`atc.Config`). -/
structure Client (Cfg : Type) where
  ListTeams : List Call → ListTeamsRes
  CreateOrUpdate : List Call → String → Team → CreateOrUpdateRes
  RenameTeam : List Call → String → String → String → FlagRes
  DestroyTeam : List Call → String → String → Error
  ListPipelines : List Call → String → ListPipelinesRes
  Pipeline : List Call → String → String → PipelineRes
  PipelineConfig : List Call → String → String → PipelineConfigRes Cfg
  CreateOrUpdatePipelineConfig :
    List Call → String → String → String → String → Bool → ConfigWriteRes
  RenamePipeline : List Call → String → String → String → FlagRes
  PausePipeline : List Call → String → String → FlagRes
  UnpausePipeline : List Call → String → String → FlagRes
  ExposePipeline : List Call → String → String → FlagRes
  HidePipeline : List Call → String → String → FlagRes
  DeletePipeline : List Call → String → String → FlagRes

/-- The configuration library: `atc.UnmarshalConfig`, `atc.Config.Diff`
(receiver first) and `yaml.Marshal`. -/
structure Atc (Cfg : Type) where
  UnmarshalConfig : String → Cfg × Error
  Diff : Cfg → Cfg → Bool
  Marshal : Cfg → String × Error

/-! ## Resource data -/

/-- Resource data of a `concourse_team`. The `old` fields hold the prior
state that `d.HasChange` compares with; a list attribute that was never set
is `none` and `d.Get` reads it as the empty list. -/
structure TeamData where
  id : String
  name : String
  oldName : String
  auth_users : Option (List String)
  old_auth_users : Option (List String)
  auth_groups : Option (List String)
  old_auth_groups : Option (List String)
deriving DecidableEq, Repr

/-- Resource data of a `concourse_pipeline`. -/
structure PipelineData where
  id : String
  team : String
  name : String
  oldName : String
  paused : Bool
  oldPaused : Bool
  isPublic : Bool
  oldPublic : Bool
  config : String
  oldConfig : String
  config_version : String
deriving DecidableEq, Repr

/-- What an operation leaves behind: the returned error, the resource data
and the calls issued so far. -/
structure Outcome (D : Type) where
  err : Error
  d : D
  calls : List Call

/-! ## `resource_team.go` -/

def teamIDAsString (id : Int) : String := intD id

/-- The loop of `teamExists`. -/
def teamExistsLoop (name : String) : List Team → Bool
  | [] => false
  | team :: rest => if team.Name = name then true else teamExistsLoop name rest

/-- The function `teamExists`: its two results and the calls issued. -/
def teamExists {Cfg : Type} (c : Client Cfg) (h : List Call) (name : String) :
    (Bool × Error) × List Call :=
  let r := c.ListTeams h
  let h := h ++ [Call.ListTeams]
  if r.err ≠ none then
    ((false, some ("unable to list teams: " ++ errV r.err)), h)
  else
    ((teamExistsLoop name r.teams, none), h)

/-- The body of `if role == "member"` in `resourceTeamRead`. -/
def setMemberAuth (d : TeamData) (auth : AuthRole) : TeamData :=
  let d :=
    match auth.lookup "users" with
    | some users => { d with auth_users := some users }
    | none => { d with auth_users := some [] }
  match auth.lookup "groups" with
  | some groups => { d with auth_groups := some groups }
  | none => { d with auth_groups := some [] }

/-- The loop `for role, auth := range team.Auth` of `resourceTeamRead`. -/
def teamReadAuthLoop : TeamAuth → TeamData → TeamData
  | [], d => d
  | (role, auth) :: rest, d =>
    teamReadAuthLoop rest (if role = "member" then setMemberAuth d auth else d)

/-- The loop `for _, team := range teams` of `resourceTeamRead`, with the
statements that follow it. -/
def teamReadLoop (id name : String) : List Team → TeamData → Error × TeamData
  | [], d => (none, { d with id := "" })
  | team :: rest, d =>
    let strID := teamIDAsString team.ID
    if id = strID ∨ id = team.Name ∨ (name ≠ "" ∧ name = team.Name) then
      let d := { d with id := strID }
      let d := { d with name := team.Name }
      (none, teamReadAuthLoop team.Auth d)
    else
      teamReadLoop id name rest d

def resourceTeamRead {Cfg : Type} (c : Client Cfg) (h : List Call) (d : TeamData) :
    Outcome TeamData :=
  let id := d.id
  let name := d.name
  let r := c.ListTeams h
  let h := h ++ [Call.ListTeams]
  if r.err ≠ none then
    ⟨some ("unable to list teams: " ++ errV r.err), d, h⟩
  else
    let res := teamReadLoop id name r.teams d
    ⟨res.1, res.2, h⟩

/-- The list conversion loops of `resourceTeamCreate` and `resourceTeamUpdate`. -/
def memberAuth (d : TeamData) : TeamAuth :=
  [("member", [("users", d.auth_users.getD []), ("groups", d.auth_groups.getD [])])]

def resourceTeamCreate {Cfg : Type} (c : Client Cfg) (h : List Call) (d : TeamData) :
    Outcome TeamData :=
  let name := d.name
  let t : Team := { ID := 0, Name := name, Auth := memberAuth d }
  let r := c.CreateOrUpdate h name t
  let h := h ++ [Call.CreateOrUpdate name t]
  if r.err ≠ none then
    ⟨some ("could not create team: " ++ errV r.err), d, h⟩
  else if !r.created && !r.updated then
    ⟨some ("could not create/update team " ++ name ++
      ": neither 'created' nor 'updated' was set to true"), d, h⟩
  else
    resourceTeamRead c h { d with id := teamIDAsString r.team.ID }

/-- How the loop of `resourceTeamUpdate` ends: with a `return` from inside
the loop, or by running off the end of the list. -/
inductive TeamScan where
  | returned (err : Error) (calls : List Call)
  | fellThrough (t : Option Team) (calls : List Call)

/-- The loop `for _, team := range teams` of `resourceTeamUpdate`. The
pointer `t` aliases the loop variable, so the assignment `t.Name = newName`
is visible through `team.Name` in the rename call that follows it. -/
def teamUpdateLoop {Cfg : Type} (c : Client Cfg) (id newName : String) :
    List Team → Option Team → List Call → TeamScan
  | [], t, h => .fellThrough t h
  | team :: rest, t, h =>
    if id = teamIDAsString team.ID then
      let oldName := team.Name
      if newName ≠ "" ∧ oldName ≠ newName then
        let team := { team with Name := newName }
        let r := c.RenameTeam h team.Name team.Name newName
        let h := h ++ [Call.RenameTeam team.Name team.Name newName]
        if r.err ≠ none then .returned r.err h else .returned none h
      else
        .returned none h
    else
      teamUpdateLoop c id newName rest t h

def resourceTeamUpdate {Cfg : Type} (c : Client Cfg) (h : List Call) (d : TeamData) :
    Outcome TeamData :=
  let newName := if d.oldName ≠ d.name then d.name else ""
  let r := c.ListTeams h
  let h := h ++ [Call.ListTeams]
  let id := d.id
  if r.err ≠ none then
    ⟨some ("unable to list teams: " ++ errV r.err), d, h⟩
  else
    match teamUpdateLoop c id newName r.teams none h with
    | .returned err h => ⟨err, d, h⟩
    | .fellThrough t h =>
      match t with
      | none => ⟨some ("team with ID " ++ d.id ++ " not found"), d, h⟩
      | some t =>
        if d.old_auth_users.getD [] ≠ d.auth_users.getD [] ∨
            d.old_auth_groups.getD [] ≠ d.auth_groups.getD [] then
          let t := { t with Auth := memberAuth d }
          let r := c.CreateOrUpdate h t.Name t
          let h := h ++ [Call.CreateOrUpdate t.Name t]
          if r.err ≠ none then
            ⟨some ("could not create team: " ++ errV r.err), d, h⟩
          else if !r.created && !r.updated then
            ⟨some ("could not create/update team " ++ t.Name ++
              ": neither 'created' nor 'updated' was set to true"), d, h⟩
          else
            resourceTeamRead c h d
        else
          resourceTeamRead c h d

def resourceTeamDelete {Cfg : Type} (c : Client Cfg) (h : List Call) (d : TeamData) :
    Outcome TeamData :=
  let name := d.name
  ⟨c.DestroyTeam h name name, d, h ++ [Call.DestroyTeam name name]⟩

/-- The loop of `resourceTeamExists`. -/
def teamExistsByIdLoop (id : String) : List Team → Bool
  | [] => false
  | team :: rest => if teamIDAsString team.ID = id then true else teamExistsByIdLoop id rest

def resourceTeamExists {Cfg : Type} (c : Client Cfg) (h : List Call) (d : TeamData) :
    (Bool × Error) × List Call :=
  let id := d.id
  let r := c.ListTeams h
  let h := h ++ [Call.ListTeams]
  if r.err ≠ none then
    ((false, some ("unable to list teams: " ++ errV r.err)), h)
  else
    ((teamExistsByIdLoop id r.teams, none), h)

/-! ## `resource_pipeline.go` -/

def pipelineIDAsString (id : Int) : String := intD id

/-- Value of a decimal digit, `none` for any other character. -/
def digitValue (ch : Char) : Option Nat :=
  if 48 ≤ ch.toNat ∧ ch.toNat ≤ 57 then some (ch.toNat - 48) else none

/-- Value of a string of decimal digits read from the left, starting from
the value `acc`; `none` when a character is not a digit. -/
def parseDigits : List Char → Nat → Option Nat
  | [], acc => some acc
  | ch :: rest, acc =>
    match digitValue ch with
    | some v => parseDigits rest (10 * acc + v)
    | none => none

/-- The unsigned part of `strconv.Atoi` applied to the text `s`: `digits`
is what follows the optional sign and `neg` tells whether the sign was a
minus. -/
def atoiDigits (s : String) (neg : Bool) (digits : List Char) : Int × Error :=
  match digits with
  | [] => (0, some ("strconv.Atoi: parsing " ++ quoted s ++ ": invalid syntax"))
  | _ :: _ =>
    match parseDigits digits 0 with
    | none => (0, some ("strconv.Atoi: parsing " ++ quoted s ++ ": invalid syntax"))
    | some n =>
      if neg then
        if (n : Int) ≤ 2 ^ 63 then (-(n : Int), none)
        else (minInt64, some ("strconv.Atoi: parsing " ++ quoted s ++ ": value out of range"))
      else
        if (n : Int) ≤ maxInt64 then ((n : Int), none)
        else (maxInt64, some ("strconv.Atoi: parsing " ++ quoted s ++ ": value out of range"))

/-- Go `strconv.Atoi` on a 64-bit platform: an optional sign followed by
one or more decimal digits, whose value must fit an `int`. The error text
is the one of `*strconv.NumError`, for a string that needs no escaping. -/
def atoi (s : String) : Int × Error :=
  match s.data with
  | [] => (0, some ("strconv.Atoi: parsing " ++ quoted s ++ ": invalid syntax"))
  | ch :: rest =>
    if ch = '+' then atoiDigits s false rest
    else if ch = '-' then atoiDigits s true rest
    else atoiDigits s false (ch :: rest)

/-- The paused toggle: `PausePipeline` when `paused`, else `UnpausePipeline`. -/
def pausedToggle {Cfg : Type} (c : Client Cfg) (h : List Call) (team : String)
    (paused : Bool) (name : String) : FlagRes × List Call :=
  if paused then
    (c.PausePipeline h team name, h ++ [Call.PausePipeline team name])
  else
    (c.UnpausePipeline h team name, h ++ [Call.UnpausePipeline team name])

/-- The public toggle: `ExposePipeline` when `public`, else `HidePipeline`. -/
def publicToggle {Cfg : Type} (c : Client Cfg) (h : List Call) (team : String)
    (isPublic : Bool) (name : String) : FlagRes × List Call :=
  if isPublic then
    (c.ExposePipeline h team name, h ++ [Call.ExposePipeline team name])
  else
    (c.HidePipeline h team name, h ++ [Call.HidePipeline team name])

/-- The block `if pipeline.Paused != paused` of `resourcePipelineCreate`. -/
def createPausedStep {Cfg : Type} (c : Client Cfg) (h : List Call) (team : String)
    (paused : Bool) (pipeline : Pipeline) : Error × List Call :=
  if pipeline.Paused ≠ paused then
    let t := pausedToggle c h team paused pipeline.Name
    if t.1.err ≠ none then
      (some ("unable to set paused state of pipeline to " ++ boolV paused ++
        ": " ++ errV t.1.err), t.2)
    else (none, t.2)
  else (none, h)

/-- The block `if pipeline.Public != public` of `resourcePipelineCreate`. -/
def createPublicStep {Cfg : Type} (c : Client Cfg) (h : List Call) (team : String)
    (isPublic : Bool) (pipeline : Pipeline) : Error × List Call :=
  if pipeline.Public ≠ isPublic then
    let t := publicToggle c h team isPublic pipeline.Name
    if t.1.err ≠ none then
      (some ("unable to set public state of pipeline to " ++ boolV isPublic ++
        ": " ++ errV t.1.err), t.2)
    else (none, t.2)
  else (none, h)

def resourcePipelineCreate {Cfg : Type} (c : Client Cfg) (h : List Call)
    (d : PipelineData) : Outcome PipelineData :=
  let name := d.name
  let team := d.team
  let paused := d.paused
  let isPublic := d.isPublic
  let config := d.config
  let r := c.Pipeline h team name
  let h := h ++ [Call.Pipeline team name]
  if r.err ≠ none then
    ⟨some ("could not fetch details of pipeline " ++ quoted name ++
      " prior to creation: " ++ errV r.err), d, h⟩
  else if r.found then
    ⟨some ("pipeline " ++ quoted name ++ " does already exist in team " ++ quoted team), d, h⟩
  else
    let w := c.CreateOrUpdatePipelineConfig h team name "1" config false
    let h := h ++ [Call.CreateOrUpdatePipelineConfig team name "1" config false]
    if w.err ≠ none then
      ⟨some ("could not create pipeline config: " ++ errV w.err), d, h⟩
    else
      let r := c.Pipeline h team name
      let h := h ++ [Call.Pipeline team name]
      let pipeline := r.pipeline
      if !w.created && !w.updated then
        ⟨some ("pipeline " ++ quoted name ++ " does not exist in team " ++ quoted team ++
          " after an attempt to create it"), d, h⟩
      else
        let pc := c.PipelineConfig h team name
        let h := h ++ [Call.PipelineConfig team name]
        if pc.err ≠ none ∨ pc.found ≠ true then
          ⟨some ("unable to read pipeline config for pipeline " ++ quoted name ++
            " in team " ++ quoted team ++ " after attempting to create it: " ++
            errV pc.err), d, h⟩
        else
          let d := { d with config := config }
          let d := { d with config_version := pc.version }
          let d := { d with id := pipelineIDAsString pipeline.ID }
          let s1 := createPausedStep c h team paused pipeline
          if s1.1 ≠ none then ⟨s1.1, d, s1.2⟩
          else
            let s2 := createPublicStep c s1.2 team isPublic pipeline
            ⟨s2.1, d, s2.2⟩

/-- The loop `for _, pipeline := range pipelines` of `resourcePipelineRead`,
with the statements that follow it. `team` is the team the client was
scoped to; `id` and `name` were read before the loop. -/
def pipelineReadLoop {Cfg : Type} (atc : Atc Cfg) (c : Client Cfg) (team id name : String) :
    List Pipeline → PipelineData → List Call → Outcome PipelineData
  | [], d, h => ⟨none, { d with id := "" }, h⟩
  | pipeline :: rest, d, h =>
    let strID := pipelineIDAsString pipeline.ID
    if id = strID ∨ id = pipeline.Name ∨ (name ≠ "" ∧ name = pipeline.Name) then
      let d := { d with id := strID }
      let d := { d with name := pipeline.Name }
      let d := { d with team := pipeline.TeamName }
      let d := { d with paused := pipeline.Paused }
      let d := { d with isPublic := pipeline.Public }
      let lastConfigStr := d.config
      let u := atc.UnmarshalConfig lastConfigStr
      if u.2 ≠ none then
        ⟨some ("error parsing last known config: " ++ errV u.2), d, h⟩
      else
        let lastConfig := u.1
        let pc := c.PipelineConfig h team pipeline.Name
        let h := h ++ [Call.PipelineConfig team pipeline.Name]
        if pc.err ≠ none then
          ⟨some ("unable to read configuration of pipeline " ++ quoted pipeline.Name ++
            ": " ++ errV pc.err), d, h⟩
        else if atc.Diff lastConfig pc.config then
          let m := atc.Marshal pc.config
          if m.2 ≠ none then
            ⟨some ("unable to marshal config: " ++ errV m.2), d, h⟩
          else
            let d := { d with config := m.1 }
            let d := { d with config_version := pc.version }
            ⟨none, d, h⟩
        else
          ⟨none, d, h⟩
    else
      pipelineReadLoop atc c team id name rest d h

def resourcePipelineRead {Cfg : Type} (atc : Atc Cfg) (c : Client Cfg) (h : List Call)
    (d : PipelineData) : Outcome PipelineData :=
  let id := d.id
  let team := d.team
  let name := d.name
  let r := c.ListPipelines h team
  let h := h ++ [Call.ListPipelines team]
  if r.err ≠ none then
    ⟨some ("unable to list pipelines of team " ++ quoted team ++ ": " ++ errV r.err), d, h⟩
  else
    pipelineReadLoop atc c team id name r.pipelines d h

/-- The block `if d.HasChange("name")` of `resourcePipelineUpdate`. -/
def updateRenameStep {Cfg : Type} (c : Client Cfg) (h : List Call) (d : PipelineData) :
    Error × List Call :=
  let team := d.team
  if d.oldName ≠ d.name then
    let oldName := d.oldName
    let newName := d.name
    let r := c.RenamePipeline h team oldName newName
    let h := h ++ [Call.RenamePipeline team oldName newName]
    if r.err ≠ none then
      (some ("unable to rename pipeline from " ++ quoted oldName ++ " to " ++
        quoted newName ++ ": " ++ errV r.err), h)
    else if !r.flag then
      (some ("pipeline with name " ++ quoted oldName ++ " not found"), h)
    else (none, h)
  else (none, h)

/-- The block `if d.HasChange("paused")` of `resourcePipelineUpdate`. -/
def updatePausedStep {Cfg : Type} (c : Client Cfg) (h : List Call) (d : PipelineData) :
    Error × List Call :=
  let team := d.team
  let name := d.name
  if d.oldPaused ≠ d.paused then
    let paused := d.paused
    let t := pausedToggle c h team paused name
    if t.1.err ≠ none then
      (some ("unable to set paused state of pipeline " ++ quoted name ++ " to " ++
        boolV paused ++ ": " ++ errV t.1.err), t.2)
    else (none, t.2)
  else (none, h)

/-- The block `if d.HasChange("public")` of `resourcePipelineUpdate`. -/
def updatePublicStep {Cfg : Type} (c : Client Cfg) (h : List Call) (d : PipelineData) :
    Error × List Call :=
  let team := d.team
  let name := d.name
  if d.oldPublic ≠ d.isPublic then
    let isPublic := d.isPublic
    let t := publicToggle c h team isPublic name
    if t.1.err ≠ none then
      (some ("unable to set public state of pipeline " ++ quoted name ++ " to " ++
        boolV isPublic ++ ": " ++ errV t.1.err), t.2)
    else (none, t.2)
  else (none, h)

/-- The slice `warningsStr` that `resourcePipelineUpdate` joins into its
error message: `make([]string, len(warnings))` followed by one `append`
per warning. -/
def warningsStr (warnings : List ConfigWarning) : List String :=
  warnings.foldl (fun acc w => acc ++ ["[" ++ w.Typ ++ "] " ++ w.Message])
    (List.replicate warnings.length "")

/-- The call `d.Set("config_version", n)` with an `int`: the schema declares
`config_version` as `schema.TypeString`, for which `helper/schema` accepts
no `int`. The call returns an error and leaves the resource data as it was. -/
def setConfigVersionInt (d : PipelineData) (_n : Int) : PipelineData × Error :=
  (d, some "config_version: '' expected type 'string', got unconvertible type 'int'")

/-- The block `if d.HasChange("config")` of `resourcePipelineUpdate`. The
error of `d.Set("config_version", version+1)` is not looked at. -/
def updateConfigStep {Cfg : Type} (atc : Atc Cfg) (c : Client Cfg) (h : List Call)
    (d : PipelineData) : Outcome PipelineData :=
  let team := d.team
  let name := d.name
  if d.oldConfig ≠ d.config then
    let config := d.config
    let u := atc.UnmarshalConfig config
    if u.2 ≠ none then
      ⟨some ("unable to parse existing config: " ++ errV u.2), d, h⟩
    else
      let newConfig := u.1
      let pc := c.PipelineConfig h team name
      let h := h ++ [Call.PipelineConfig team name]
      if pc.err ≠ none then
        ⟨some ("unable to fetch configuration of pipeline " ++ quoted name ++
          " of team " ++ quoted team ++ ": " ++ errV pc.err), d, h⟩
      else if pc.found ≠ true then
        ⟨some ("no pipeline " ++ quoted name ++ " of team " ++ quoted team ++ " found"), d, h⟩
      else
        let existingConfig := pc.config
        let existingConfigVersion := pc.version
        let a := atoi existingConfigVersion
        if a.2 ≠ none then
          ⟨some ("unable to parse current config version: " ++ errV a.2), d, h⟩
        else
          let version := a.1
          if atc.Diff existingConfig newConfig then
            let w := c.CreateOrUpdatePipelineConfig h team name existingConfigVersion config false
            let h := h ++
              [Call.CreateOrUpdatePipelineConfig team name existingConfigVersion config false]
            if w.err ≠ none ∨ (!w.created && !w.updated) then
              ⟨some ("unable to update configuration of pipeline " ++ quoted name ++
                " of team " ++ quoted team ++ " (current version: " ++ intD version ++
                "): " ++ errV w.err ++ ", " ++ ", ".intercalate (warningsStr w.warnings)), d, h⟩
            else
              ⟨none, (setConfigVersionInt d (wrapInt64 (version + 1))).1, h⟩
          else ⟨none, d, h⟩
  else ⟨none, d, h⟩

def resourcePipelineUpdate {Cfg : Type} (atc : Atc Cfg) (c : Client Cfg) (h : List Call)
    (d : PipelineData) : Outcome PipelineData :=
  let s1 := updateRenameStep c h d
  if s1.1 ≠ none then ⟨s1.1, d, s1.2⟩
  else
    let s2 := updatePausedStep c s1.2 d
    if s2.1 ≠ none then ⟨s2.1, d, s2.2⟩
    else
      let s3 := updatePublicStep c s2.2 d
      if s3.1 ≠ none then ⟨s3.1, d, s3.2⟩
      else
        let s4 := updateConfigStep atc c s3.2 d
        if s4.err ≠ none then s4
        else resourcePipelineRead atc c s4.calls s4.d

def resourcePipelineDelete {Cfg : Type} (c : Client Cfg) (h : List Call)
    (d : PipelineData) : Outcome PipelineData :=
  let team := d.team
  let name := d.name
  ⟨(c.DeletePipeline h team name).err, d, h ++ [Call.DeletePipeline team name]⟩

/-- The loop of `resourcePipelineExists`. -/
def pipelineExistsLoop (name team : String) : List Pipeline → Bool
  | [] => false
  | pipeline :: rest =>
    if pipeline.Name = name ∧ pipeline.TeamName = team then true
    else pipelineExistsLoop name team rest

def resourcePipelineExists {Cfg : Type} (c : Client Cfg) (h : List Call)
    (d : PipelineData) : (Bool × Error) × List Call :=
  let team := d.team
  let name := d.name
  let e := teamExists c h team
  let h := e.2
  if e.1.2 ≠ none then
    ((false, some ("unable to list teams: " ++ errV e.1.2)), h)
  else if !e.1.1 then
    ((false, none), h)
  else
    let r := c.ListPipelines h team
    let h := h ++ [Call.ListPipelines team]
    if r.err ≠ none then
      ((false, some ("unable to list pipelines: " ++ errV r.err)), h)
    else
      ((pipelineExistsLoop name team r.pipelines, none), h)

/-- The importer `resourcePipelineState`; a `nil` slice is an outcome with an error. -/
def resourcePipelineState {Cfg : Type} (atc : Atc Cfg) (c : Client Cfg) (h : List Call)
    (d : PipelineData) : Outcome PipelineData :=
  let nameOrID := d.id
  let r := resourcePipelineRead atc c h d
  if r.err ≠ none then r
  else if r.d.id = "" then
    ⟨some ("pipeline with ID or name " ++ nameOrID ++ " not found"), r.d, r.calls⟩
  else r

/-- The importer `resourceTeamState`. -/
def resourceTeamState {Cfg : Type} (c : Client Cfg) (h : List Call) (d : TeamData) :
    Outcome TeamData :=
  let nameOrID := d.id
  let r := resourceTeamRead c h d
  if r.err ≠ none then r
  else if r.d.id = "" then
    ⟨some ("team with ID or name " ++ nameOrID ++ " not found"), r.d, r.calls⟩
  else r

/-! ## `fly_config.go` -/

/-- The struct `FlyRcTargetToken`; `Typ` is its field `Type`. -/
structure FlyRcTargetToken where
  Typ : String
  Value : String
deriving DecidableEq, Repr

/-- The struct `FlyRcTarget`. -/
structure FlyRcTarget where
  API : String
  Team : String
  Insecure : Bool
  Token : FlyRcTargetToken
deriving DecidableEq, Repr

/-- The struct `FlyRc`: `Filename` carries no yaml tag, `Targets` carries
the tag `targets` and is a Go map from target name to target. -/
structure FlyRc where
  Filename : String
  Targets : List (String × FlyRcTarget)
deriving DecidableEq, Repr

/-- The field of `os/user.User` that the code reads. -/
structure User where
  HomeDir : String
deriving DecidableEq, Repr

/-- One access to the file system. -/
inductive FsCall where
  | Stat (path : String)
  | ReadFile (path : String)
deriving DecidableEq, Repr

/-- The process environment and the file system as the code sees them:
`os.LookupEnv` (value and whether the variable is set), `user.Current`
(a pointer, `none` when nil, and an error; on failure the library returns
the nil pointer), the error of `os.Stat` and `ioutil.ReadFile`. -/
structure Os where
  LookupEnv : String → String × Bool
  Current : Option User × Error
  Stat : String → Error
  ReadFile : String → String × Error

/-- How a Go function ends: it returns, or it panics. -/
inductive Run (α : Type) where
  | done (a : α)
  | panicked (msg : String)
deriving DecidableEq, Repr

/-- What `yaml.Unmarshal` finds in a document for the fields of a `FlyRc`.
The yaml.v2 decoder fills the exported fields of the struct, each under the
key of its yaml tag or, without a tag, under its lower-cased name: so
`Targets` is read from the key `targets` and `Filename` from the key
`filename`. A key that is absent, or that failed to decode, is `none`. -/
structure FlyRcDocument where
  filename : Option String
  targets : Option (List (String × FlyRcTarget))
deriving DecidableEq, Repr

/-- The YAML parser: the keys it decodes from a text and the error it reports. -/
structure Yaml where
  Decode : String → FlyRcDocument × Error

/-- The call `yaml.Unmarshal(b, rc)`: every decoded key overwrites its
field, every other field keeps its value. For `Targets` this is the
decoding into the nil map of a fresh receiver; into a map that already
holds entries the library adds the decoded ones. -/
def yamlUnmarshal (y : Yaml) (b : String) (rc : FlyRc) : FlyRc × Error :=
  let r := y.Decode b
  ({ Filename := r.1.filename.getD rc.Filename, Targets := r.1.targets.getD rc.Targets }, r.2)

/-- The method `setFlyRcLocation`. After a failed `user.Current` the code
sets the fallback and goes on to read `cu.HomeDir` through the pointer. -/
def FlyRc.setFlyRcLocation (os : Os) (rc : FlyRc) : Run FlyRc :=
  let fallback := ".flyrc"
  let e := os.LookupEnv "FLYRC"
  if e.2 then
    if 0 < e.1.utf8ByteSize then .done { rc with Filename := e.1 }
    else .done rc
  else
    let cu := os.Current
    let rc := if cu.2 ≠ none then { rc with Filename := fallback } else rc
    match cu.1 with
    | none => .panicked "runtime error: invalid memory address or nil pointer dereference"
    | some u => .done { rc with Filename := u.HomeDir ++ "/.flyrc" }

/-- The method `readFlyConfig`: the bytes, the error and the accesses made. -/
def FlyRc.readFlyConfig (os : Os) (rc : FlyRc) : (String × Error) × List FsCall :=
  let e := os.Stat rc.Filename
  if e ≠ none then
    (("", some ("unable to stat the flyrc file (" ++ rc.Filename ++ "): " ++ errV e)),
      [FsCall.Stat rc.Filename])
  else
    (os.ReadFile rc.Filename, [FsCall.Stat rc.Filename, FsCall.ReadFile rc.Filename])

/-- What `ImportConfig` leaves behind when it returns: the receiver, the
returned error and the accesses to the file system. -/
structure ImportResult where
  rc : FlyRc
  err : Error
  accessed : List FsCall
deriving DecidableEq, Repr

/-- The method `ImportConfig`. -/
def FlyRc.ImportConfig (y : Yaml) (os : Os) (rc : FlyRc) : Run ImportResult :=
  match rc.setFlyRcLocation os with
  | .panicked msg => .panicked msg
  | .done rc =>
    let r := rc.readFlyConfig os
    if r.1.2 ≠ none then .done ⟨rc, r.1.2, r.2⟩
    else
      let u := yamlUnmarshal y r.1.1 rc
      .done ⟨u.1, u.2, r.2⟩

/-! ## The identity resolver of the specification -/

/-- Identity resolver as section 4.1 of the specification words it: the
first entity of `collection`, in list order, whose rendered id or whose
name equals `token`, or whose name equals a non-empty `fallbackName`. -/
def specResolve {E : Type} (idOf : E → Int) (nameOf : E → String) (token : String)
    (collection : List E) (fallbackName : String) : Option E :=
  collection.find? (fun e =>
    decide (intD (idOf e) = token ∨ nameOf e = token ∨
      (fallbackName ≠ "" ∧ nameOf e = fallbackName)))

/-! ## Stub clients and sample runs -/

/-- A remote service with no teams and no pipelines that accepts every write. -/
def stubClient : Client String where
  ListTeams := fun _ => ⟨[], none⟩
  CreateOrUpdate := fun _ _ t => ⟨t, true, false, none⟩
  RenameTeam := fun _ _ _ _ => ⟨true, none⟩
  DestroyTeam := fun _ _ _ => none
  ListPipelines := fun _ _ => ⟨[], none⟩
  Pipeline := fun _ _ _ => ⟨⟨0, "", false, false, ""⟩, false, none⟩
  PipelineConfig := fun _ _ _ => ⟨"", "1", true, none⟩
  CreateOrUpdatePipelineConfig := fun _ _ _ _ _ _ => ⟨true, false, [], none⟩
  RenamePipeline := fun _ _ _ _ => ⟨true, none⟩
  PausePipeline := fun _ _ _ => ⟨true, none⟩
  UnpausePipeline := fun _ _ _ => ⟨true, none⟩
  ExposePipeline := fun _ _ _ => ⟨true, none⟩
  HidePipeline := fun _ _ _ => ⟨true, none⟩
  DeletePipeline := fun _ _ _ => ⟨true, none⟩

/-- A configuration library on raw text: parsing always succeeds and two
documents differ exactly when their texts differ. -/
def stubAtc : Atc String where
  UnmarshalConfig := fun s => (s, none)
  Diff := fun a b => a != b
  Marshal := fun cfg => (cfg, none)

/-- One team `ops` with id 1 and a member role. -/
def opsTeam : Team := ⟨1, "ops", [("member", [("users", ["alice"]), ("groups", [])])]⟩

/-- A service whose only team is `opsTeam`. -/
def opsClient : Client String :=
  { stubClient with ListTeams := fun _ => ⟨[opsTeam], none⟩ }

/-- Team resource `ops` with id `1` whose desired `auth_users` changed
from `alice` to `alice, bob`. -/
def opsAuthChanged : TeamData :=
  { id := "1", name := "ops", oldName := "ops",
    auth_users := some ["alice", "bob"], old_auth_users := some ["alice"],
    auth_groups := some [], old_auth_groups := some [] }

/-- Two pipelines of team `ops`; the name of the first is the rendered id of the second. -/
def opsPipelines : List Pipeline :=
  [⟨1, "2", false, false, "ops"⟩, ⟨2, "build", true, false, "ops"⟩]

/-- A service whose team `ops` holds `opsPipelines`. -/
def pipelinesClient : Client String :=
  { opsClient with ListPipelines := fun _ _ => ⟨opsPipelines, none⟩ }

/-- Pipeline resource addressed by the token `build`, without a name hint. -/
def buildByName : PipelineData :=
  { id := "build", team := "ops", name := "", oldName := "",
    paused := false, oldPaused := false, isPublic := false, oldPublic := false,
    config := "jobs: []", oldConfig := "jobs: []", config_version := "1" }

/-- The pipeline `build` of team `ops`, id 2, with the given paused flag. -/
def buildPipeline (paused : Bool) : Pipeline := ⟨2, "build", paused, false, "ops"⟩

/-- A service on which the pipeline `build` cannot be seen before a
configuration write and is reported with the given paused flag after it. -/
def createdClient (paused : Bool) : Client String :=
  { opsClient with
    Pipeline := fun h _ _ =>
      if h.any Call.isCreateOrUpdatePipelineConfig then ⟨buildPipeline paused, true, none⟩
      else ⟨⟨0, "", false, false, ""⟩, false, none⟩ }

/-- Desired state of a new pipeline `build` in team `ops`. -/
def newBuild (paused : Bool) : PipelineData :=
  { id := "", team := "ops", name := "build", oldName := "",
    paused := paused, oldPaused := false, isPublic := false, oldPublic := false,
    config := "jobs: []", oldConfig := "", config_version := "" }

/-- A service holding the pipeline `build` with configuration `jobs: []`
at the given version; after a configuration write it reports the
configuration `jobs: [a]` at version `next`. -/
def versionedClient (version next : String) : Client String :=
  { opsClient with
    ListPipelines := fun _ _ => ⟨[buildPipeline false], none⟩
    PipelineConfig := fun h _ _ =>
      if h.any Call.isCreateOrUpdatePipelineConfig then ⟨"jobs: [a]", next, true, none⟩
      else ⟨"jobs: []", version, true, none⟩ }

/-- A service holding the pipeline `build` whose configuration already is
`jobs: [a]`, at version 7. -/
def sameConfigClient : Client String :=
  { opsClient with
    ListPipelines := fun _ _ => ⟨[buildPipeline false], none⟩
    PipelineConfig := fun _ _ _ => ⟨"jobs: [a]", "7", true, none⟩ }

/-- Pipeline resource `build` whose desired configuration changed from
`jobs: []` to `jobs: [a]`. -/
def buildConfigChanged : PipelineData :=
  { id := "2", team := "ops", name := "build", oldName := "build",
    paused := false, oldPaused := false, isPublic := false, oldPublic := false,
    config := "jobs: [a]", oldConfig := "jobs: []", config_version := "7" }

/-- Pipeline resource `build` renamed from `old`, with paused and public
both switched on and an unchanged configuration. -/
def buildTogglesChanged : PipelineData :=
  { id := "2", team := "ops", name := "build", oldName := "old",
    paused := true, oldPaused := false, isPublic := true, oldPublic := false,
    config := "jobs: []", oldConfig := "jobs: []", config_version := "7" }

/-- A service whose PausePipeline call fails. -/
def pauseFailsClient : Client String :=
  { versionedClient "7" "8" with PausePipeline := fun _ _ _ => ⟨false, some "boom"⟩ }

/-- Pipeline resource of the team `ghost`, which no service here lists. -/
def ghostPipeline : PipelineData :=
  { buildByName with team := "ghost", name := "build" }

/-- Pipeline resource `build` of team `ops`. -/
def opsBuild : PipelineData :=
  { buildByName with team := "ops", name := "build" }

/-- A team whose auth map holds an `owner` role and no `member` role. -/
def ownerOnlyTeam : Team := ⟨1, "ops", [("owner", [("users", ["bob"]), ("groups", ["admins"])])]⟩

/-- A service whose only team is `ownerOnlyTeam`. -/
def ownerOnlyClient : Client String :=
  { stubClient with ListTeams := fun _ => ⟨[ownerOnlyTeam], none⟩ }

/-- Team resource `ops` whose `auth_users` is `alice` and whose
`auth_groups` was never set. -/
def opsStale : TeamData :=
  { id := "1", name := "ops", oldName := "ops",
    auth_users := some ["alice"], old_auth_users := some ["alice"],
    auth_groups := none, old_auth_groups := none }

/-- Two teams; the name of the first is the rendered id of the second. -/
def clashTeams : List Team := [⟨1, "2", []⟩, ⟨2, "dev", []⟩]

/-- A service holding `clashTeams` and, in every team, `opsPipelines`. -/
def clashClient : Client String :=
  { pipelinesClient with ListTeams := fun _ => ⟨clashTeams, none⟩ }

/-- Team resource with nothing but the given id token. -/
def teamToken (token : String) : TeamData :=
  { id := token, name := "", oldName := "",
    auth_users := none, old_auth_users := none, auth_groups := none, old_auth_groups := none }

/-- Two teams with distinct ids and names, no name being an id rendering. -/
def twoTeams : List Team := [opsTeam, ⟨2, "dev", []⟩]

/-- Two pipelines with distinct ids and names, no name being an id rendering. -/
def twoPipelines : List Pipeline := [⟨1, "test", false, false, "ops"⟩, buildPipeline true]

/-- A service holding `twoTeams` and, in every team, `twoPipelines`. -/
def twoClient : Client String :=
  { stubClient with
    ListTeams := fun _ => ⟨twoTeams, none⟩
    ListPipelines := fun _ _ => ⟨twoPipelines, none⟩ }

/-- A service holding the pipeline `build` at version 7 whose
configuration write fails and returns two warnings. -/
def writeFailsClient : Client String :=
  { versionedClient "7" "8" with
    CreateOrUpdatePipelineConfig := fun _ _ _ _ _ _ =>
      ⟨false, false, [⟨"deprecation", "old syntax"⟩, ⟨"pipeline", "no jobs"⟩], some "boom"⟩ }

/-- A parser that knows two texts: one with two targets and one that also
carries a top-level key `filename`. -/
def stubYaml : Yaml where
  Decode := fun b =>
    if b = "targets: two" then
      (⟨none, some [("main", ⟨"https://ci", "ops", false, ⟨"bearer", "t1"⟩⟩),
        ("test", ⟨"https://ci2", "dev", false, ⟨"bearer", "t2"⟩⟩)]⟩, none)
    else if b = "filename: /elsewhere" then (⟨some "/elsewhere", none⟩, none)
    else (⟨none, none⟩, some "yaml: unmarshal errors")

/-- An environment with `FLYRC` set to `./testdata/flyrc.yml`, whose file
has the given content, and a current user with home `/home/ci`. -/
def envOs (content : String) : Os where
  LookupEnv := fun k => if k = "FLYRC" then ("./testdata/flyrc.yml", true) else ("", false)
  Current := (some ⟨"/home/ci"⟩, none)
  Stat := fun path => if path = "./testdata/flyrc.yml" then none else some "no such file"
  ReadFile := fun path =>
    if path = "./testdata/flyrc.yml" then (content, none) else ("", some "no such file")

/-- An environment without `FLYRC` in which `user.Current` fails. -/
def noUserOs : Os where
  LookupEnv := fun _ => ("", false)
  Current := (none, some "user: Current requires cgo")
  Stat := fun _ => none
  ReadFile := fun _ => ("targets: two", none)

/-- The zero value `var rc FlyRc`. -/
def emptyFlyRc : FlyRc := ⟨"", []⟩

/-- The calls that read and never write. -/
def Call.isQuery : Call → Bool
  | .ListTeams => true
  | .ListPipelines _ => true
  | .Pipeline _ _ => true
  | .PipelineConfig _ _ => true
  | _ => false

/-! # Theorems -/

/-! ## Team Update -/

theorem setMemberAuth_id_name (d : TeamData) (auth : AuthRole) :
    (setMemberAuth d auth).id = d.id ∧ (setMemberAuth d auth).name = d.name := by
  unfold setMemberAuth
  cases auth.lookup "users" <;> cases auth.lookup "groups" <;> simp

theorem teamReadAuthLoop_id_name (auth : TeamAuth) (d : TeamData) :
    (teamReadAuthLoop auth d).id = d.id ∧ (teamReadAuthLoop auth d).name = d.name := by
  induction auth generalizing d with
  | nil => simp [teamReadAuthLoop]
  | cons ra rest ih =>
    obtain ⟨role, a⟩ := ra
    simp only [teamReadAuthLoop]
    by_cases hr : role = "member"
    · rw [if_pos hr, (ih _).1, (ih _).2]
      exact setMemberAuth_id_name d a
    · rw [if_neg hr]
      exact ih d

theorem teamUpdateLoop_outcome {Cfg : Type} (c : Client Cfg) (id newName : String)
    (teams : List Team) (h : List Call) :
    teamUpdateLoop c id newName teams none h = .fellThrough none h ∨
    ∃ err rest, teamUpdateLoop c id newName teams none h = .returned err (h ++ rest) ∧
      rest.countP Call.isCreateOrUpdate = 0 := by
  induction teams with
  | nil => exact Or.inl rfl
  | cons team rest ih =>
    simp only [teamUpdateLoop]
    split_ifs
    · exact Or.inr ⟨_, [Call.RenameTeam newName newName newName], rfl, rfl⟩
    · exact Or.inr ⟨none, [Call.RenameTeam newName newName newName], rfl, rfl⟩
    · exact Or.inr ⟨none, [], by simp, rfl⟩
    · exact ih

/-- Whatever the client answers and whatever changed, the calls of Team
Update hold no CreateOrUpdate call beyond those issued before it. -/
theorem resourceTeamUpdate_issues_no_createOrUpdate {Cfg : Type} (c : Client Cfg)
    (h : List Call) (d : TeamData) :
    (resourceTeamUpdate c h d).calls.countP Call.isCreateOrUpdate =
      h.countP Call.isCreateOrUpdate := by
  by_cases herr : (c.ListTeams h).err ≠ none
  · simp [resourceTeamUpdate, herr, List.countP_append, Call.isCreateOrUpdate]
  · simp only [resourceTeamUpdate, if_neg herr]
    rcases teamUpdateLoop_outcome c d.id (if d.oldName ≠ d.name then d.name else "")
      (c.ListTeams h).teams (h ++ [Call.ListTeams]) with e | ⟨err, rest, e, hz⟩
    · rw [e]
      simp [List.countP_append, Call.isCreateOrUpdate]
    · rw [e]
      simp [List.countP_append, Call.isCreateOrUpdate, hz]

/-- C1 (code as written): the team `ops` is found by its id `1` in
ListTeams and its `auth_users` changed, yet Update returns no error after
the single call ListTeams and issues no CreateOrUpdate call. -/
theorem resourceTeamUpdate_found_issues_no_createOrUpdate :
    opsAuthChanged.old_auth_users ≠ opsAuthChanged.auth_users ∧
    (resourceTeamUpdate opsClient [] opsAuthChanged).err = none ∧
    (resourceTeamUpdate opsClient [] opsAuthChanged).calls = [Call.ListTeams] ∧
    (resourceTeamUpdate opsClient [] opsAuthChanged).calls.countP Call.isCreateOrUpdate = 0 := by
  decide

/-! ## Identity resolution in Read -/

theorem teamReadLoop_resolve (id name : String) (teams : List Team) (d : TeamData) :
    match specResolve Team.ID Team.Name id teams name with
    | some t =>
      (teamReadLoop id name teams d).1 = none ∧
      (teamReadLoop id name teams d).2.id = teamIDAsString t.ID ∧
      (teamReadLoop id name teams d).2.name = t.Name
    | none => teamReadLoop id name teams d = (none, { d with id := "" }) := by
  induction teams with
  | nil => simp [specResolve, teamReadLoop]
  | cons team rest ih =>
    by_cases hm : id = teamIDAsString team.ID ∨ id = team.Name ∨ (name ≠ "" ∧ name = team.Name)
    · have hs : specResolve Team.ID Team.Name id (team :: rest) name = some team := by
        have hm2 : intD team.ID = id ∨ team.Name = id ∨ (name ≠ "" ∧ team.Name = name) := by
          rcases hm with h1 | h1 | ⟨h1, h2⟩
          · exact Or.inl h1.symm
          · exact Or.inr (Or.inl h1.symm)
          · exact Or.inr (Or.inr ⟨h1, h2.symm⟩)
        simp [specResolve, List.find?_cons, hm2]
      rw [hs]
      simp only [teamReadLoop, if_pos hm]
      refine ⟨trivial, ?_, ?_⟩
      · rw [(teamReadAuthLoop_id_name _ _).1]
      · rw [(teamReadAuthLoop_id_name _ _).2]
    · have hm2 : ¬ (intD team.ID = id ∨ team.Name = id ∨ (name ≠ "" ∧ team.Name = name)) := by
        intro h0
        apply hm
        rcases h0 with h1 | h1 | ⟨h1, h2⟩
        · exact Or.inl h1.symm
        · exact Or.inr (Or.inl h1.symm)
        · exact Or.inr (Or.inr ⟨h1, h2.symm⟩)
      have hs : specResolve Team.ID Team.Name id (team :: rest) name =
          specResolve Team.ID Team.Name id rest name := by
        simp [specResolve, List.find?_cons, hm2]
      rw [hs]
      simp only [teamReadLoop, if_neg hm]
      exact ih

theorem pipelineReadLoop_resolve {Cfg : Type} (atc : Atc Cfg) (c : Client Cfg)
    (team id name : String) (ps : List Pipeline) (d : PipelineData) (h : List Call) :
    match specResolve Pipeline.ID Pipeline.Name id ps name with
    | some p =>
      (pipelineReadLoop atc c team id name ps d h).d.id = pipelineIDAsString p.ID ∧
      (pipelineReadLoop atc c team id name ps d h).d.name = p.Name ∧
      (pipelineReadLoop atc c team id name ps d h).d.team = p.TeamName ∧
      (pipelineReadLoop atc c team id name ps d h).d.paused = p.Paused ∧
      (pipelineReadLoop atc c team id name ps d h).d.isPublic = p.Public
    | none =>
      (pipelineReadLoop atc c team id name ps d h).err = none ∧
      (pipelineReadLoop atc c team id name ps d h).d = { d with id := "" } ∧
      (pipelineReadLoop atc c team id name ps d h).calls = h := by
  induction ps with
  | nil => simp [specResolve, pipelineReadLoop]
  | cons p rest ih =>
    by_cases hm : id = pipelineIDAsString p.ID ∨ id = p.Name ∨ (name ≠ "" ∧ name = p.Name)
    · have hs : specResolve Pipeline.ID Pipeline.Name id (p :: rest) name = some p := by
        have hm2 : intD p.ID = id ∨ p.Name = id ∨ (name ≠ "" ∧ p.Name = name) := by
          rcases hm with h1 | h1 | ⟨h1, h2⟩
          · exact Or.inl h1.symm
          · exact Or.inr (Or.inl h1.symm)
          · exact Or.inr (Or.inr ⟨h1, h2.symm⟩)
        simp [specResolve, List.find?_cons, hm2]
      rw [hs]
      simp only [pipelineReadLoop, if_pos hm]
      split_ifs <;> simp
    · have hm2 : ¬ (intD p.ID = id ∨ p.Name = id ∨ (name ≠ "" ∧ p.Name = name)) := by
        intro h0
        apply hm
        rcases h0 with h1 | h1 | ⟨h1, h2⟩
        · exact Or.inl h1.symm
        · exact Or.inr (Or.inl h1.symm)
        · exact Or.inr (Or.inr ⟨h1, h2.symm⟩)
      have hs : specResolve Pipeline.ID Pipeline.Name id (p :: rest) name =
          specResolve Pipeline.ID Pipeline.Name id rest name := by
        simp [specResolve, List.find?_cons, hm2]
      rw [hs]
      simp only [pipelineReadLoop, if_neg hm]
      exact ih

/-- C2: in both Reads the entity selected is the one the resolver of the
specification returns for the token `d.id`, the listed collection and the
name hint `d.name`, that is the first element in list order that matches by
rendered id, by name or by a non-empty name hint. Its id and name (and for
a pipeline its team, paused and public flags) are stored. When no element
matches, Read returns no error and only sets the id to the empty string. -/
theorem read_selects_first_match {Cfg : Type} (atc : Atc Cfg) (c : Client Cfg)
    (h : List Call) (teams : List Team) (pipelines : List Pipeline)
    (td : TeamData) (pd : PipelineData)
    (hteams : c.ListTeams h = ⟨teams, none⟩)
    (hpipelines : c.ListPipelines h pd.team = ⟨pipelines, none⟩) :
    (match specResolve Team.ID Team.Name td.id teams td.name with
      | some t =>
        (resourceTeamRead c h td).err = none ∧
        (resourceTeamRead c h td).d.id = teamIDAsString t.ID ∧
        (resourceTeamRead c h td).d.name = t.Name
      | none =>
        (resourceTeamRead c h td).err = none ∧
        (resourceTeamRead c h td).d = { td with id := "" }) ∧
    (match specResolve Pipeline.ID Pipeline.Name pd.id pipelines pd.name with
      | some p =>
        (resourcePipelineRead atc c h pd).d.id = pipelineIDAsString p.ID ∧
        (resourcePipelineRead atc c h pd).d.name = p.Name ∧
        (resourcePipelineRead atc c h pd).d.team = p.TeamName ∧
        (resourcePipelineRead atc c h pd).d.paused = p.Paused ∧
        (resourcePipelineRead atc c h pd).d.isPublic = p.Public
      | none =>
        (resourcePipelineRead atc c h pd).err = none ∧
        (resourcePipelineRead atc c h pd).d = { pd with id := "" }) := by
  constructor
  · have key := teamReadLoop_resolve td.id td.name teams td
    have hr : resourceTeamRead c h td =
        ⟨(teamReadLoop td.id td.name teams td).1, (teamReadLoop td.id td.name teams td).2,
          h ++ [Call.ListTeams]⟩ := by
      simp [resourceTeamRead, hteams]
    rw [hr]
    cases hres : specResolve Team.ID Team.Name td.id teams td.name with
    | none =>
      rw [hres] at key
      simp only at key
      simp [key]
    | some t =>
      rw [hres] at key
      exact key
  · have key := pipelineReadLoop_resolve atc c pd.team pd.id pd.name pipelines pd
      (h ++ [Call.ListPipelines pd.team])
    have hr : resourcePipelineRead atc c h pd =
        pipelineReadLoop atc c pd.team pd.id pd.name pipelines pd
          (h ++ [Call.ListPipelines pd.team]) := by
      simp [resourcePipelineRead, hpipelines]
    rw [hr]
    cases hres : specResolve Pipeline.ID Pipeline.Name pd.id pipelines pd.name with
    | none =>
      rw [hres] at key
      exact ⟨key.1, key.2.1⟩
    | some p =>
      rw [hres] at key
      exact key

/-- C2 at a concrete input: the token `build` skips the first pipeline and
selects the second, whose id is 2. -/
theorem read_selects_first_match_witness :
    (resourceTeamRead pipelinesClient [] opsAuthChanged).d.id = "1" ∧
    (resourcePipelineRead stubAtc pipelinesClient [] buildByName).d.id = "2" ∧
    (resourcePipelineRead stubAtc pipelinesClient [] buildByName).d.paused = true := by
  have key := read_selects_first_match stubAtc pipelinesClient [] [opsTeam] opsPipelines
    opsAuthChanged buildByName rfl rfl
  have h1 : specResolve Team.ID Team.Name opsAuthChanged.id [opsTeam] opsAuthChanged.name =
      some opsTeam := by decide
  have h2 : specResolve Pipeline.ID Pipeline.Name buildByName.id opsPipelines buildByName.name =
      some ⟨2, "build", true, false, "ops"⟩ := by decide
  rw [h1, h2] at key
  exact ⟨key.1.2.1, key.2.1, key.2.2.2.2.1⟩


theorem digitValue_digitChar (k : Nat) (hk : k < 10) : digitValue (Nat.digitChar k) = some k := by
  interval_cases k <;> rfl

theorem digitChar_not_sign (k : Nat) (hk : k < 10) :
    Nat.digitChar k ≠ '+' ∧ Nat.digitChar k ≠ '-' := by
  interval_cases k <;> decide

theorem parseDigits_toDigitsCore (fuel n : Nat) (ds : List Char) (hn : n < fuel) :
    parseDigits (Nat.toDigitsCore 10 fuel n ds) 0 = parseDigits ds n := by
  induction fuel generalizing n ds with
  | zero => omega
  | succ fuel ih =>
    have hd : digitValue (Nat.digitChar (n % 10)) = some (n % 10) :=
      digitValue_digitChar _ (Nat.mod_lt _ (by decide))
    simp only [Nat.toDigitsCore]
    by_cases h0 : n / 10 = 0
    · rw [if_pos h0]
      simp only [parseDigits, hd]
      congr 1
      omega
    · rw [if_neg h0, ih (n / 10) _ (by omega)]
      simp only [parseDigits, hd]
      congr 1
      omega

theorem toDigitsCore_head (fuel n : Nat) (ds : List Char) :
    ∃ k rest, k < 10 ∧ Nat.toDigitsCore 10 (fuel + 1) n ds = Nat.digitChar k :: rest := by
  induction fuel generalizing n ds with
  | zero =>
    refine ⟨n % 10, ds, Nat.mod_lt _ (by decide), ?_⟩
    simp [Nat.toDigitsCore]
  | succ fuel ih =>
    rw [Nat.toDigitsCore]
    by_cases h0 : n / 10 = 0
    · exact ⟨n % 10, ds, Nat.mod_lt _ (by decide), by simp [h0]⟩
    · simp only [h0, if_false]
      exact ih _ _

theorem atoiDigits_toDigits (s : String) (n : Nat) (neg : Bool) :
    atoiDigits s neg (Nat.toDigits 10 n) =
      if neg then
        if (n : Int) ≤ 2 ^ 63 then (-(n : Int), none)
        else (minInt64, some ("strconv.Atoi: parsing " ++ quoted s ++ ": value out of range"))
      else
        if (n : Int) ≤ maxInt64 then ((n : Int), none)
        else (maxInt64, some ("strconv.Atoi: parsing " ++ quoted s ++ ": value out of range")) := by
  obtain ⟨k, rest, _, hk⟩ := toDigitsCore_head n n []
  have hp : parseDigits (Nat.toDigits 10 n) 0 = some n := by
    unfold Nat.toDigits
    rw [parseDigits_toDigitsCore _ _ _ (Nat.lt_succ_self n)]
    rfl
  have hk2 : Nat.toDigits 10 n = Nat.digitChar k :: rest := hk
  unfold atoiDigits
  rw [hk2] at hp ⊢
  simp only [hp]

theorem atoi_intD (v : Int) (hlo : minInt64 ≤ v) (hhi : v ≤ maxInt64) :
    atoi (intD v) = (v, none) := by
  cases v with
  | ofNat n =>
    obtain ⟨k, rest, hk10, hk⟩ := toDigitsCore_head n n []
    have hdata : (intD (Int.ofNat n)).data = Nat.toDigits 10 n := rfl
    have hk2 : Nat.toDigits 10 n = Nat.digitChar k :: rest := hk
    have hs := digitChar_not_sign k hk10
    unfold atoi
    rw [hdata, hk2]
    simp only [hs.1, hs.2, if_false]
    rw [← hk2, atoiDigits_toDigits]
    have : (n : Int) ≤ maxInt64 := hhi
    simp [this]
  | negSucc m =>
    have hdata : (intD (Int.negSucc m)).data = '-' :: Nat.toDigits 10 (m + 1) := rfl
    unfold atoi
    rw [hdata]
    have h1 : ('-' : Char) ≠ '+' := by decide
    show (if ('-' : Char) = '+' then _ else if ('-' : Char) = '-' then _ else _) = _
    rw [if_neg h1, if_pos rfl, atoiDigits_toDigits]
    have : ((m + 1 : Nat) : Int) ≤ 2 ^ 63 := by
      have := hlo
      simp only [minInt64] at this
      have h2 : Int.negSucc m = -((m + 1 : Nat) : Int) := rfl
      rw [h2] at this
      omega
    rw [if_pos rfl, if_pos this]
    rfl

/-! ## Pipeline Create: verification after the write -/

/-- C3 (code as written): the configuration write reports `created` with no
error and both lookups of the pipeline report that it does not exist, yet
Create returns no error and stores the id `0` of the empty pipeline value. -/
theorem resourcePipelineCreate_ignores_failed_lookup :
    (stubClient.CreateOrUpdatePipelineConfig [Call.Pipeline "ops" "build"]
      "ops" "build" "1" "jobs: []" false).created = true ∧
    (stubClient.CreateOrUpdatePipelineConfig [Call.Pipeline "ops" "build"]
      "ops" "build" "1" "jobs: []" false).err = none ∧
    (stubClient.Pipeline [Call.Pipeline "ops" "build",
      Call.CreateOrUpdatePipelineConfig "ops" "build" "1" "jobs: []" false]
      "ops" "build").found = false ∧
    (resourcePipelineCreate stubClient [] (newBuild false)).err = none ∧
    (resourcePipelineCreate stubClient [] (newBuild false)).d.id = "0" := by
  decide

/-! ## Calls issued by Read and by the steps of Update -/

theorem pipelineReadLoop_calls {Cfg : Type} (atc : Atc Cfg) (c : Client Cfg)
    (team id name : String) (ps : List Pipeline) (d : PipelineData) (h : List Call) :
    ∃ rest, (pipelineReadLoop atc c team id name ps d h).calls = h ++ rest ∧
      ∀ x ∈ rest, x.isQuery = true := by
  induction ps with
  | nil => exact ⟨[], by simp [pipelineReadLoop]⟩
  | cons p rest ih =>
    simp only [pipelineReadLoop]
    split_ifs
    · exact ⟨[], by simp⟩
    · exact ⟨[Call.PipelineConfig team p.Name], by simp [Call.isQuery]⟩
    · exact ⟨[Call.PipelineConfig team p.Name], by simp [Call.isQuery]⟩
    · exact ⟨[Call.PipelineConfig team p.Name], by simp [Call.isQuery]⟩
    · exact ⟨[Call.PipelineConfig team p.Name], by simp [Call.isQuery]⟩
    · exact ih

theorem resourcePipelineRead_calls {Cfg : Type} (atc : Atc Cfg) (c : Client Cfg)
    (h : List Call) (d : PipelineData) :
    ∃ rest, (resourcePipelineRead atc c h d).calls = h ++ rest ∧
      ∀ x ∈ rest, x.isQuery = true := by
  simp only [resourcePipelineRead]
  split_ifs
  · exact ⟨[Call.ListPipelines d.team], by simp [Call.isQuery]⟩
  · obtain ⟨rest, hr, hq⟩ := pipelineReadLoop_calls atc c d.team d.id d.name
      (c.ListPipelines h d.team).pipelines d (h ++ [Call.ListPipelines d.team])
    refine ⟨Call.ListPipelines d.team :: rest, ?_, ?_⟩
    · rw [hr]; simp
    · intro x hx
      rcases List.mem_cons.mp hx with hx | hx
      · rw [hx]; rfl
      · exact hq x hx

theorem countP_eq_zero_of_queries (p : Call → Bool) (hp : ∀ x, x.isQuery = true → p x = false)
    (rest : List Call) (hq : ∀ x ∈ rest, x.isQuery = true) : rest.countP p = 0 := by
  rw [List.countP_eq_zero]
  intro x hx
  simp [hp x (hq x hx)]

theorem updateRenameStep_calls {Cfg : Type} (c : Client Cfg) (h : List Call) (d : PipelineData) :
    (updateRenameStep c h d).2 = h ∨
    (updateRenameStep c h d).2 = h ++ [Call.RenamePipeline d.team d.oldName d.name] := by
  simp only [updateRenameStep]
  split_ifs <;> simp

theorem updatePausedStep_calls {Cfg : Type} (c : Client Cfg) (h : List Call) (d : PipelineData) :
    (updatePausedStep c h d).2 = h ∨
    (updatePausedStep c h d).2 = h ++ [Call.PausePipeline d.team d.name] ∨
    (updatePausedStep c h d).2 = h ++ [Call.UnpausePipeline d.team d.name] := by
  simp only [updatePausedStep, pausedToggle]
  split_ifs <;> simp

theorem updatePublicStep_calls {Cfg : Type} (c : Client Cfg) (h : List Call) (d : PipelineData) :
    (updatePublicStep c h d).2 = h ∨
    (updatePublicStep c h d).2 = h ++ [Call.ExposePipeline d.team d.name] ∨
    (updatePublicStep c h d).2 = h ++ [Call.HidePipeline d.team d.name] := by
  simp only [updatePublicStep, publicToggle]
  split_ifs <;> simp

theorem toggles_countP_write {Cfg : Type} (c : Client Cfg) (h : List Call) (d : PipelineData) :
    (updatePublicStep c (updatePausedStep c (updateRenameStep c h d).2 d).2 d).2.countP
        Call.isCreateOrUpdatePipelineConfig = h.countP Call.isCreateOrUpdatePipelineConfig ∧
    (updatePausedStep c (updateRenameStep c h d).2 d).2.countP
        Call.isCreateOrUpdatePipelineConfig = h.countP Call.isCreateOrUpdatePipelineConfig ∧
    (updateRenameStep c h d).2.countP
        Call.isCreateOrUpdatePipelineConfig = h.countP Call.isCreateOrUpdatePipelineConfig := by
  have h1 : (updateRenameStep c h d).2.countP Call.isCreateOrUpdatePipelineConfig =
      h.countP Call.isCreateOrUpdatePipelineConfig := by
    rcases updateRenameStep_calls c h d with e | e
    · rw [e]
    · rw [e]
      simp [List.countP_append, Call.isCreateOrUpdatePipelineConfig]
  have h2 : (updatePausedStep c (updateRenameStep c h d).2 d).2.countP
      Call.isCreateOrUpdatePipelineConfig = h.countP Call.isCreateOrUpdatePipelineConfig := by
    rcases updatePausedStep_calls c (updateRenameStep c h d).2 d with e | e | e <;> rw [e] <;>
      simp [List.countP_append, Call.isCreateOrUpdatePipelineConfig, h1]
  refine ⟨?_, h2, h1⟩
  rcases updatePublicStep_calls c (updatePausedStep c (updateRenameStep c h d).2 d).2 d
    with e | e | e <;> rw [e] <;>
    simp [List.countP_append, Call.isCreateOrUpdatePipelineConfig, h2]

/-! ## Pipeline Update with an unchanged config -/

/-- C5: when the desired config equals the last-known config, Update issues
no CreateOrUpdatePipelineConfig call, whatever happens to name, paused and
public: the calls it leaves hold as many config writes as the calls before it. -/
theorem resourcePipelineUpdate_unchanged_config_no_write {Cfg : Type} (atc : Atc Cfg)
    (c : Client Cfg) (h : List Call) (d : PipelineData) (hsame : d.config = d.oldConfig) :
    (resourcePipelineUpdate atc c h d).calls.countP Call.isCreateOrUpdatePipelineConfig =
      h.countP Call.isCreateOrUpdatePipelineConfig := by
  obtain ⟨k3, k2, k1⟩ := toggles_countP_write c h d
  have hstep : ∀ h3, updateConfigStep atc c h3 d = ⟨none, d, h3⟩ := by
    intro h3
    simp [updateConfigStep, hsame]
  simp only [resourcePipelineUpdate, hstep]
  split_ifs
  · exact k1
  · exact k2
  · exact k3
  · simp at *
  · obtain ⟨rest, hr, hq⟩ := resourcePipelineRead_calls atc c
      (updatePublicStep c (updatePausedStep c (updateRenameStep c h d).2 d).2 d).2 d
    rw [hr, List.countP_append, k3,
      countP_eq_zero_of_queries Call.isCreateOrUpdatePipelineConfig _ rest hq]
    · rfl
    · intro x hx
      cases x <;> simp_all [Call.isQuery, Call.isCreateOrUpdatePipelineConfig]

/-- C5 at a concrete input: name, paused and public all change, the config
does not, and the run holds no config write. -/
theorem resourcePipelineUpdate_unchanged_config_no_write_witness :
    buildTogglesChanged.config = buildTogglesChanged.oldConfig ∧
    (resourcePipelineUpdate stubAtc (versionedClient "7" "8") []
      buildTogglesChanged).calls.countP Call.isCreateOrUpdatePipelineConfig = 0 :=
  ⟨rfl, resourcePipelineUpdate_unchanged_config_no_write stubAtc (versionedClient "7" "8") []
    buildTogglesChanged rfl⟩

/-! ## Pipeline Update: the toggles -/

/-- C6 (the claim fails): paused and public both changed and the
PausePipeline call fails; Update stops with that error and the run holds no
ExposePipeline and no HidePipeline call. -/
theorem paused_failure_skips_public_toggle_example :
    buildTogglesChanged.oldPaused ≠ buildTogglesChanged.paused ∧
    buildTogglesChanged.oldPublic ≠ buildTogglesChanged.isPublic ∧
    (resourcePipelineUpdate stubAtc pauseFailsClient [] buildTogglesChanged).err =
      some "unable to set paused state of pipeline \"build\" to true: boom" ∧
    (resourcePipelineUpdate stubAtc pauseFailsClient [] buildTogglesChanged).calls =
      [Call.RenamePipeline "ops" "old" "build", Call.PausePipeline "ops" "build"] ∧
    (resourcePipelineUpdate stubAtc pauseFailsClient [] buildTogglesChanged).calls.countP
      Call.isPublicToggle = 0 := by
  decide

/-- C6 as amended: when paused changed and the paused toggle call
(PausePipeline or UnpausePipeline) returns an error, Update returns an
error, the paused toggle is its last call, the resource data is left as it
was, and no public toggle call is issued, whether or not public changed. -/
theorem resourcePipelineUpdate_paused_failure_blocks_public {Cfg : Type} (atc : Atc Cfg)
    (c : Client Cfg) (h h1 : List Call) (d : PipelineData)
    (hrename : updateRenameStep c h d = (none, h1))
    (hchanged : d.oldPaused ≠ d.paused)
    (hfails : (if d.paused then c.PausePipeline h1 d.team d.name
      else c.UnpausePipeline h1 d.team d.name).err ≠ none) :
    (resourcePipelineUpdate atc c h d).err ≠ none ∧
    (resourcePipelineUpdate atc c h d).calls =
      h1 ++ [if d.paused then Call.PausePipeline d.team d.name
        else Call.UnpausePipeline d.team d.name] ∧
    (resourcePipelineUpdate atc c h d).d = d ∧
    (resourcePipelineUpdate atc c h d).calls.countP Call.isPublicToggle =
      h.countP Call.isPublicToggle := by
  have hcount : h1.countP Call.isPublicToggle = h.countP Call.isPublicToggle := by
    have e := updateRenameStep_calls c h d
    rw [hrename] at e
    rcases e with e | e
    · exact congrArg _ e
    · have e2 : h1 = h ++ [Call.RenamePipeline d.team d.oldName d.name] := e
      rw [e2]
      simp [List.countP_append, Call.isPublicToggle]
  cases hp : d.paused with
  | true =>
    rw [hp] at hfails
    simp only [if_true] at hfails
    have ho : d.oldPaused = false := by
      cases hq : d.oldPaused
      · rfl
      · exact absurd (hq.trans hp.symm) hchanged
    have hs : updatePausedStep c h1 d =
        (some ("unable to set paused state of pipeline " ++ quoted d.name ++ " to " ++
          boolV true ++ ": " ++ errV (c.PausePipeline h1 d.team d.name).err),
          h1 ++ [Call.PausePipeline d.team d.name]) := by
      simp [updatePausedStep, pausedToggle, hp, ho, hfails]
    simp [resourcePipelineUpdate, hrename, hs, List.countP_append, Call.isPublicToggle, hcount]
  | false =>
    rw [hp] at hfails
    simp only [Bool.false_eq_true, if_false] at hfails
    have ho : d.oldPaused = true := by
      cases hq : d.oldPaused
      · exact absurd (hq.trans hp.symm) hchanged
      · rfl
    have hs : updatePausedStep c h1 d =
        (some ("unable to set paused state of pipeline " ++ quoted d.name ++ " to " ++
          boolV false ++ ": " ++ errV (c.UnpausePipeline h1 d.team d.name).err),
          h1 ++ [Call.UnpausePipeline d.team d.name]) := by
      simp [updatePausedStep, pausedToggle, hp, ho, hfails]
    simp [resourcePipelineUpdate, hrename, hs, List.countP_append, Call.isPublicToggle, hcount]

/-- C6 as amended, at a concrete input: after the rename, PausePipeline
fails and Update stops without touching the public flag. -/
theorem resourcePipelineUpdate_paused_failure_blocks_public_witness :
    (resourcePipelineUpdate stubAtc pauseFailsClient [] buildTogglesChanged).err ≠ none ∧
    (resourcePipelineUpdate stubAtc pauseFailsClient [] buildTogglesChanged).calls =
      [Call.RenamePipeline "ops" "old" "build"] ++ [Call.PausePipeline "ops" "build"] ∧
    (resourcePipelineUpdate stubAtc pauseFailsClient [] buildTogglesChanged).d =
      buildTogglesChanged ∧
    (resourcePipelineUpdate stubAtc pauseFailsClient [] buildTogglesChanged).calls.countP
      Call.isPublicToggle = 0 :=
  resourcePipelineUpdate_paused_failure_blocks_public stubAtc pauseFailsClient []
    [Call.RenamePipeline "ops" "old" "build"] buildTogglesChanged (by decide) (by decide)
    (by decide)

/-! ## Pipeline Exists -/

theorem teamExistsLoop_iff (name : String) (teams : List Team) :
    teamExistsLoop name teams = true ↔ ∃ t ∈ teams, t.Name = name := by
  induction teams with
  | nil => simp [teamExistsLoop]
  | cons t rest ih =>
    simp only [teamExistsLoop, List.mem_cons, exists_eq_or_imp]
    by_cases ht : t.Name = name
    · simp [ht]
    · simp [ht, ih]

theorem pipelineExistsLoop_iff (name team : String) (ps : List Pipeline) :
    pipelineExistsLoop name team ps = true ↔
      ∃ p ∈ ps, p.Name = name ∧ p.TeamName = team := by
  induction ps with
  | nil => simp [pipelineExistsLoop]
  | cons p rest ih =>
    simp only [pipelineExistsLoop, List.mem_cons, exists_eq_or_imp]
    by_cases hp : p.Name = name ∧ p.TeamName = team
    · simp [hp]
    · simp [hp, ih]

/-- C7: with a team list that was fetched without error, Exists on a team
name absent from it returns false and no error after the single call
ListTeams, so no ListPipelines call is issued; on a team name present in it,
once the pipelines are listed without error, it returns no error and
returns true exactly when some listed pipeline has the requested name and
the requested team as its team_name. -/
theorem resourcePipelineExists_spec {Cfg : Type} (c : Client Cfg) (h : List Call)
    (d : PipelineData) (teams : List Team) (hteams : c.ListTeams h = ⟨teams, none⟩) :
    ((∀ t ∈ teams, t.Name ≠ d.team) →
      resourcePipelineExists c h d = ((false, none), h ++ [Call.ListTeams]) ∧
      (resourcePipelineExists c h d).2.countP Call.isListPipelines =
        h.countP Call.isListPipelines) ∧
    ((∃ t ∈ teams, t.Name = d.team) →
      ∀ pipelines, c.ListPipelines (h ++ [Call.ListTeams]) d.team = ⟨pipelines, none⟩ →
        (resourcePipelineExists c h d).1.2 = none ∧
        ((resourcePipelineExists c h d).1.1 = true ↔
          ∃ p ∈ pipelines, p.Name = d.name ∧ p.TeamName = d.team)) := by
  constructor
  · intro habsent
    have hloop : teamExistsLoop d.team teams = false := by
      rw [← Bool.not_eq_true, teamExistsLoop_iff]
      rintro ⟨t, ht, hn⟩
      exact habsent t ht hn
    have hres : resourcePipelineExists c h d = ((false, none), h ++ [Call.ListTeams]) := by
      simp [resourcePipelineExists, teamExists, hteams, hloop]
    rw [hres]
    simp [List.countP_append, Call.isListPipelines]
  · intro hpresent pipelines hpipelines
    have hloop : teamExistsLoop d.team teams = true := (teamExistsLoop_iff _ _).2 hpresent
    have hres : resourcePipelineExists c h d =
        ((pipelineExistsLoop d.name d.team pipelines, none),
          h ++ [Call.ListTeams] ++ [Call.ListPipelines d.team]) := by
      simp [resourcePipelineExists, teamExists, hteams, hloop, hpipelines]
    rw [hres]
    exact ⟨rfl, pipelineExistsLoop_iff _ _ _⟩

/-- C7 at concrete inputs: the team `ghost` is absent and Exists stops
after ListTeams; the team `ops` is present and holds the pipeline `build`. -/
theorem resourcePipelineExists_spec_witness :
    resourcePipelineExists pipelinesClient [] ghostPipeline = ((false, none), [Call.ListTeams]) ∧
    (resourcePipelineExists pipelinesClient [] opsBuild).1 = (true, none) := by
  have hghost := (resourcePipelineExists_spec pipelinesClient [] ghostPipeline [opsTeam] rfl).1
    (by decide)
  have hops := (resourcePipelineExists_spec pipelinesClient [] opsBuild [opsTeam] rfl).2
    ⟨opsTeam, by decide, by decide⟩ opsPipelines rfl
  refine ⟨hghost.1, ?_⟩
  have h1 := hops.1
  have h2 := hops.2.2 ⟨⟨2, "build", true, false, "ops"⟩, by decide, by decide, by decide⟩
  exact Prod.ext h2 h1

/-! ## Team Read: the auth lists -/

/-- C8 (code as written): the matched team holds an `owner` role and no
`member` role; Read returns no error and leaves `auth_users` at its previous
value `alice` and `auth_groups` unset. -/
theorem resourceTeamRead_without_member_role_keeps_auth :
    (resourceTeamRead ownerOnlyClient [] opsStale).err = none ∧
    (resourceTeamRead ownerOnlyClient [] opsStale).d.id = "1" ∧
    (resourceTeamRead ownerOnlyClient [] opsStale).d.auth_users = some ["alice"] ∧
    (resourceTeamRead ownerOnlyClient [] opsStale).d.auth_groups = none := by
  decide

/-! ## Pipeline Update: the version protocol -/

theorem wrapInt64_of_range (n : Int) (hlo : minInt64 ≤ n) (hhi : n ≤ maxInt64) :
    wrapInt64 n = n := by
  simp only [minInt64, maxInt64] at hlo hhi
  unfold wrapInt64
  rw [Int.emod_eq_of_lt (by omega) (by omega)]
  omega

/-- Two gates before the config write: with the observed token the
rendering of 2^63 Update fails on parsing it and issues no config write;
and when the server already holds the desired config no write is issued. -/
theorem config_write_gates_examples :
    (intD (2 ^ 63) = "9223372036854775808" ∧
      (resourcePipelineUpdate stubAtc (versionedClient "9223372036854775808" "1") []
        buildConfigChanged).err ≠ none ∧
      (resourcePipelineUpdate stubAtc (versionedClient "9223372036854775808" "1") []
        buildConfigChanged).calls.countP Call.isCreateOrUpdatePipelineConfig = 0) ∧
    (buildConfigChanged.oldConfig ≠ buildConfigChanged.config ∧
      (resourcePipelineUpdate stubAtc sameConfigClient [] buildConfigChanged).err = none ∧
      (resourcePipelineUpdate stubAtc sameConfigClient [] buildConfigChanged).calls.countP
        Call.isCreateOrUpdatePipelineConfig = 0) := by
  decide

/-- Let the rename and toggle steps pass, the config text have changed and
parse, and the server report, without error, a config that the diff oracle
tells apart from the desired one, at a version token that renders an
integer v within the range of `int`. Then Update issues, right after that
observation, one CreateOrUpdatePipelineConfig call carrying exactly the
observed token, and no other config write. When that call reports created
or updated without error, the config step leaves the resource data, and
with it the local config_version, as they were, and Update hands that
state to its concluding Read. -/
theorem resourcePipelineUpdate_config_write {Cfg : Type} (atc : Atc Cfg) (c : Client Cfg)
    (h h1 h2 h3 : List Call) (d : PipelineData) (existing : Cfg) (v : Int)
    (hrename : updateRenameStep c h d = (none, h1))
    (hpaused : updatePausedStep c h1 d = (none, h2))
    (hpublic : updatePublicStep c h2 d = (none, h3))
    (hchanged : d.oldConfig ≠ d.config)
    (hparse : (atc.UnmarshalConfig d.config).2 = none)
    (hobserved : c.PipelineConfig h3 d.team d.name = ⟨existing, intD v, true, none⟩)
    (hdiff : atc.Diff existing (atc.UnmarshalConfig d.config).1 = true)
    (hlo : minInt64 ≤ v) (hhi : v ≤ maxInt64) :
    (∃ rest,
      (resourcePipelineUpdate atc c h d).calls =
        h3 ++ [Call.PipelineConfig d.team d.name,
          Call.CreateOrUpdatePipelineConfig d.team d.name (intD v) d.config false] ++ rest ∧
      rest.countP Call.isCreateOrUpdatePipelineConfig = 0) ∧
    ((c.CreateOrUpdatePipelineConfig (h3 ++ [Call.PipelineConfig d.team d.name])
        d.team d.name (intD v) d.config false).err = none →
      ((c.CreateOrUpdatePipelineConfig (h3 ++ [Call.PipelineConfig d.team d.name])
        d.team d.name (intD v) d.config false).created = true ∨
       (c.CreateOrUpdatePipelineConfig (h3 ++ [Call.PipelineConfig d.team d.name])
        d.team d.name (intD v) d.config false).updated = true) →
      (updateConfigStep atc c h3 d).err = none ∧
      (updateConfigStep atc c h3 d).d = d ∧
      resourcePipelineUpdate atc c h d =
        resourcePipelineRead atc c
          (h3 ++ [Call.PipelineConfig d.team d.name,
            Call.CreateOrUpdatePipelineConfig d.team d.name (intD v) d.config false]) d) := by
  have hatoi : atoi (intD v) = (v, none) := atoi_intD v hlo hhi
  have hupd : resourcePipelineUpdate atc c h d =
      if (updateConfigStep atc c h3 d).err ≠ none then updateConfigStep atc c h3 d
      else resourcePipelineRead atc c (updateConfigStep atc c h3 d).calls
        (updateConfigStep atc c h3 d).d := by
    simp [resourcePipelineUpdate, hrename, hpaused, hpublic]
  have hfail : ((c.CreateOrUpdatePipelineConfig (h3 ++ [Call.PipelineConfig d.team d.name])
        d.team d.name (intD v) d.config false).err ≠ none ∨
      ((c.CreateOrUpdatePipelineConfig (h3 ++ [Call.PipelineConfig d.team d.name])
        d.team d.name (intD v) d.config false).created = false ∧
       (c.CreateOrUpdatePipelineConfig (h3 ++ [Call.PipelineConfig d.team d.name])
        d.team d.name (intD v) d.config false).updated = false)) →
      (updateConfigStep atc c h3 d).err ≠ none ∧
      (updateConfigStep atc c h3 d).calls =
        h3 ++ [Call.PipelineConfig d.team d.name,
          Call.CreateOrUpdatePipelineConfig d.team d.name (intD v) d.config false] := by
    intro hc
    simp only [updateConfigStep, hobserved, hatoi, hdiff, hparse]
    simp [hchanged, hc]
  have hgood : (c.CreateOrUpdatePipelineConfig (h3 ++ [Call.PipelineConfig d.team d.name])
        d.team d.name (intD v) d.config false).err = none →
      ((c.CreateOrUpdatePipelineConfig (h3 ++ [Call.PipelineConfig d.team d.name])
        d.team d.name (intD v) d.config false).created = true ∨
       (c.CreateOrUpdatePipelineConfig (h3 ++ [Call.PipelineConfig d.team d.name])
        d.team d.name (intD v) d.config false).updated = true) →
      updateConfigStep atc c h3 d =
        ⟨none, d,
          h3 ++ [Call.PipelineConfig d.team d.name,
            Call.CreateOrUpdatePipelineConfig d.team d.name (intD v) d.config false]⟩ := by
    intro he hcu
    simp only [updateConfigStep, hobserved, hatoi, hdiff, hparse, setConfigVersionInt]
    rcases hcu with hcu | hcu <;> simp [hchanged, he, hcu]
  have hfinal : (c.CreateOrUpdatePipelineConfig (h3 ++ [Call.PipelineConfig d.team d.name])
        d.team d.name (intD v) d.config false).err = none →
      ((c.CreateOrUpdatePipelineConfig (h3 ++ [Call.PipelineConfig d.team d.name])
        d.team d.name (intD v) d.config false).created = true ∨
       (c.CreateOrUpdatePipelineConfig (h3 ++ [Call.PipelineConfig d.team d.name])
        d.team d.name (intD v) d.config false).updated = true) →
      resourcePipelineUpdate atc c h d =
        resourcePipelineRead atc c
          (h3 ++ [Call.PipelineConfig d.team d.name,
            Call.CreateOrUpdatePipelineConfig d.team d.name (intD v) d.config false]) d := by
    intro he hcu
    rw [hupd, hgood he hcu]
    simp
  constructor
  · by_cases hc : (c.CreateOrUpdatePipelineConfig (h3 ++ [Call.PipelineConfig d.team d.name])
        d.team d.name (intD v) d.config false).err ≠ none ∨
      ((c.CreateOrUpdatePipelineConfig (h3 ++ [Call.PipelineConfig d.team d.name])
        d.team d.name (intD v) d.config false).created = false ∧
       (c.CreateOrUpdatePipelineConfig (h3 ++ [Call.PipelineConfig d.team d.name])
        d.team d.name (intD v) d.config false).updated = false)
    · refine ⟨[], ?_, rfl⟩
      rw [hupd, if_pos (hfail hc).1, (hfail hc).2]
      simp
    · have he : (c.CreateOrUpdatePipelineConfig (h3 ++ [Call.PipelineConfig d.team d.name])
          d.team d.name (intD v) d.config false).err = none := by
        by_contra hne
        exact hc (Or.inl hne)
      have hcu : (c.CreateOrUpdatePipelineConfig (h3 ++ [Call.PipelineConfig d.team d.name])
            d.team d.name (intD v) d.config false).created = true ∨
          (c.CreateOrUpdatePipelineConfig (h3 ++ [Call.PipelineConfig d.team d.name])
            d.team d.name (intD v) d.config false).updated = true := by
        by_contra hne
        apply hc
        right
        simpa [not_or] using hne
      obtain ⟨rest, hr, hq⟩ := resourcePipelineRead_calls atc c
        (h3 ++ [Call.PipelineConfig d.team d.name,
          Call.CreateOrUpdatePipelineConfig d.team d.name (intD v) d.config false]) d
      refine ⟨rest, ?_, ?_⟩
      · rw [hfinal he hcu, hr]
      · apply countP_eq_zero_of_queries _ _ rest hq
        intro x hx
        cases x <;> simp_all [Call.isQuery, Call.isCreateOrUpdatePipelineConfig]
  · intro he hcu
    rw [hgood he hcu]
    exact ⟨rfl, rfl, hfinal he hcu⟩

/-- C4 (code as written): the scenario of the specification. The config
changed, the server holds the pipeline at the observed version 7, and the
write, which carries the token 7, reports created without error. The config
step leaves the local config_version at 7, and so does the whole Update,
whose concluding Read finds the server at version 8 with the desired config. -/
theorem resourcePipelineUpdate_version_not_advanced :
    buildConfigChanged.oldConfig ≠ buildConfigChanged.config ∧
    ((versionedClient "7" "8").PipelineConfig [] "ops" "build").version = intD 7 ∧
    (resourcePipelineUpdate stubAtc (versionedClient "7" "8") [] buildConfigChanged).calls =
      [Call.PipelineConfig "ops" "build",
        Call.CreateOrUpdatePipelineConfig "ops" "build" "7" "jobs: [a]" false,
        Call.ListPipelines "ops", Call.PipelineConfig "ops" "build"] ∧
    ((versionedClient "7" "8").CreateOrUpdatePipelineConfig [Call.PipelineConfig "ops" "build"]
      "ops" "build" "7" "jobs: [a]" false).created = true ∧
    ((versionedClient "7" "8").CreateOrUpdatePipelineConfig [Call.PipelineConfig "ops" "build"]
      "ops" "build" "7" "jobs: [a]" false).err = none ∧
    (updateConfigStep stubAtc (versionedClient "7" "8") [] buildConfigChanged).err = none ∧
    (updateConfigStep stubAtc (versionedClient "7" "8") [] buildConfigChanged).d.config_version =
      "7" ∧
    (resourcePipelineUpdate stubAtc (versionedClient "7" "8") [] buildConfigChanged).err = none ∧
    (resourcePipelineUpdate stubAtc (versionedClient "7" "8") []
      buildConfigChanged).d.config_version = "7" ∧
    ((versionedClient "7" "8").PipelineConfig
      (resourcePipelineUpdate stubAtc (versionedClient "7" "8") [] buildConfigChanged).calls
      "ops" "build").version = "8" := by
  decide

/-! ## Resolve by id and resolve by name -/

/-- C9 (the claim fails): the second team has id 2 and name `dev`, and the
first team is named `2`. Read with the token `2` selects the first team and
Read with the token `dev` selects the second. The same holds for the
pipeline `build` with id 2 next to a pipeline named `2`. -/
theorem read_by_id_and_by_name_disagree :
    (⟨2, "dev", []⟩ : Team) ∈ clashTeams ∧
    (resourceTeamRead clashClient [] (teamToken (teamIDAsString 2))).d.id = "1" ∧
    (resourceTeamRead clashClient [] (teamToken "dev")).d.id = "2" ∧
    (⟨2, "build", true, false, "ops"⟩ : Pipeline) ∈ opsPipelines ∧
    (resourcePipelineRead stubAtc clashClient []
      { buildByName with id := pipelineIDAsString 2 }).d.id = "1" ∧
    (resourcePipelineRead stubAtc clashClient [] { buildByName with id := "build" }).d.id =
      "2" := by
  decide

theorem find?_eq_of_agree {α : Type} (p q : α → Bool) (l : List α)
    (hagree : ∀ x ∈ l, p x = q x) : l.find? p = l.find? q := by
  induction l with
  | nil => rfl
  | cons a rest ih =>
    have ha : p a = q a := hagree a (List.mem_cons_self a rest)
    have hr : rest.find? p = rest.find? q :=
      ih (fun x hx => hagree x (List.mem_cons_of_mem a hx))
    simp only [List.find?_cons, ha, hr]

theorem specResolve_by_id_eq_by_name {E : Type} (idOf : E → Int) (nameOf : E → String)
    (coll : List E) (hint : String) (e : E) (he : e ∈ coll)
    (huniq : ∀ f ∈ coll, f ≠ e →
      intD (idOf f) ≠ intD (idOf e) ∧ nameOf f ≠ intD (idOf e) ∧
      intD (idOf f) ≠ nameOf e ∧ nameOf f ≠ nameOf e) :
    ∃ f ∈ coll, specResolve idOf nameOf (intD (idOf e)) coll hint = some f ∧
      specResolve idOf nameOf (nameOf e) coll hint = some f := by
  have hsame : specResolve idOf nameOf (intD (idOf e)) coll hint =
      specResolve idOf nameOf (nameOf e) coll hint := by
    unfold specResolve
    apply find?_eq_of_agree
    intro f hf
    by_cases hfe : f = e
    · subst hfe
      simp
    · obtain ⟨u1, u2, u3, u4⟩ := huniq f hf hfe
      simp [u1, u2, u3, u4]
  have hsome : (specResolve idOf nameOf (intD (idOf e)) coll hint).isSome = true := by
    unfold specResolve
    rw [List.find?_isSome]
    exact ⟨e, he, by simp⟩
  obtain ⟨f, hf⟩ := Option.isSome_iff_exists.mp hsome
  refine ⟨f, ?_, hf, hsame ▸ hf⟩
  unfold specResolve at hf
  exact List.mem_of_find?_eq_some hf

theorem teamReadLoop_agree (id1 id2 name : String) (teams : List Team) (d : TeamData)
    (a b : String)
    (hagree : ∀ f ∈ teams,
      (id1 = teamIDAsString f.ID ∨ id1 = f.Name ∨ (name ≠ "" ∧ name = f.Name)) ↔
      (id2 = teamIDAsString f.ID ∨ id2 = f.Name ∨ (name ≠ "" ∧ name = f.Name))) :
    teamReadLoop id1 name teams { d with id := a } =
      teamReadLoop id2 name teams { d with id := b } := by
  induction teams with
  | nil => rfl
  | cons t rest ih =>
    have ht := hagree t (List.mem_cons_self t rest)
    have hrest := ih (fun f hf => hagree f (List.mem_cons_of_mem t hf))
    by_cases hm : id1 = teamIDAsString t.ID ∨ id1 = t.Name ∨ (name ≠ "" ∧ name = t.Name)
    · simp only [teamReadLoop, if_pos hm, if_pos (ht.mp hm)]
    · simp only [teamReadLoop, if_neg hm, if_neg (fun h2 => hm (ht.mpr h2))]
      exact hrest

theorem pipelineReadLoop_agree {Cfg : Type} (atc : Atc Cfg) (c : Client Cfg)
    (team id1 id2 name : String) (ps : List Pipeline) (d : PipelineData) (h : List Call)
    (a b : String)
    (hagree : ∀ f ∈ ps,
      (id1 = pipelineIDAsString f.ID ∨ id1 = f.Name ∨ (name ≠ "" ∧ name = f.Name)) ↔
      (id2 = pipelineIDAsString f.ID ∨ id2 = f.Name ∨ (name ≠ "" ∧ name = f.Name))) :
    pipelineReadLoop atc c team id1 name ps { d with id := a } h =
      pipelineReadLoop atc c team id2 name ps { d with id := b } h := by
  induction ps with
  | nil => rfl
  | cons p rest ih =>
    have hp := hagree p (List.mem_cons_self p rest)
    have hrest := ih (fun f hf => hagree f (List.mem_cons_of_mem p hf))
    by_cases hm : id1 = pipelineIDAsString p.ID ∨ id1 = p.Name ∨ (name ≠ "" ∧ name = p.Name)
    · simp only [pipelineReadLoop, if_pos hm, if_pos (hp.mp hm)]
    · simp only [pipelineReadLoop, if_neg hm, if_neg (fun h2 => hm (hp.mpr h2))]
      exact hrest

theorem match_by_id_iff_by_name (eid ename fid fname name : String)
    (huniq : ¬ (fid = eid ∧ fname = ename) → fid ≠ eid ∧ fname ≠ eid ∧ fid ≠ ename ∧ fname ≠ ename) :
    (eid = fid ∨ eid = fname ∨ (name ≠ "" ∧ name = fname)) ↔
    (ename = fid ∨ ename = fname ∨ (name ≠ "" ∧ name = fname)) := by
  by_cases hfe : fid = eid ∧ fname = ename
  · obtain ⟨h1, h2⟩ := hfe
    subst h1 h2
    simp
  · obtain ⟨u1, u2, u3, u4⟩ := huniq hfe
    constructor
    · rintro (h1 | h1 | h1)
      · exact absurd h1.symm u1
      · exact absurd h1.symm u2
      · exact Or.inr (Or.inr h1)
    · rintro (h1 | h1 | h1)
      · exact absurd h1.symm u3
      · exact absurd h1.symm u4
      · exact Or.inr (Or.inr h1)

/-- C9 as amended: let an entity of the listed collection be such that no
other entity of the collection has an id rendering equal to its id rendering
or to its name, nor a name equal to its name or to its id rendering. Then
Read with its rendered id as token and Read with its name as token, under
the same name hint, select the same entity of the collection and leave the
same error, the same resource data and the same calls. This holds for teams
and for pipelines. -/
theorem read_by_id_and_by_name_agree {Cfg : Type} (atc : Atc Cfg) (c : Client Cfg)
    (h : List Call) (teams : List Team) (pipelines : List Pipeline)
    (td : TeamData) (pd : PipelineData) (t : Team) (p : Pipeline)
    (hteams : c.ListTeams h = ⟨teams, none⟩)
    (hpipelines : c.ListPipelines h pd.team = ⟨pipelines, none⟩)
    (ht : t ∈ teams) (hp : p ∈ pipelines)
    (htu : ∀ f ∈ teams, f ≠ t →
      intD f.ID ≠ intD t.ID ∧ f.Name ≠ intD t.ID ∧ intD f.ID ≠ t.Name ∧ f.Name ≠ t.Name)
    (hpu : ∀ f ∈ pipelines, f ≠ p →
      intD f.ID ≠ intD p.ID ∧ f.Name ≠ intD p.ID ∧ intD f.ID ≠ p.Name ∧ f.Name ≠ p.Name) :
    (∃ f ∈ teams,
      specResolve Team.ID Team.Name (teamIDAsString t.ID) teams td.name = some f ∧
      specResolve Team.ID Team.Name t.Name teams td.name = some f) ∧
    resourceTeamRead c h { td with id := teamIDAsString t.ID } =
      resourceTeamRead c h { td with id := t.Name } ∧
    (∃ f ∈ pipelines,
      specResolve Pipeline.ID Pipeline.Name (pipelineIDAsString p.ID) pipelines pd.name = some f ∧
      specResolve Pipeline.ID Pipeline.Name p.Name pipelines pd.name = some f) ∧
    resourcePipelineRead atc c h { pd with id := pipelineIDAsString p.ID } =
      resourcePipelineRead atc c h { pd with id := p.Name } := by
  refine ⟨specResolve_by_id_eq_by_name Team.ID Team.Name teams td.name t ht htu, ?_,
    specResolve_by_id_eq_by_name Pipeline.ID Pipeline.Name pipelines pd.name p hp hpu, ?_⟩
  · have hloop := teamReadLoop_agree (teamIDAsString t.ID) t.Name td.name teams td
      (teamIDAsString t.ID) t.Name (by
        intro f hf
        apply match_by_id_iff_by_name
        intro hne
        apply htu f hf
        intro hfe
        exact hne ⟨by rw [hfe], by rw [hfe]⟩)
    simp only [resourceTeamRead, hteams]
    rw [hloop]
    simp
  · have hloop := pipelineReadLoop_agree atc c pd.team (pipelineIDAsString p.ID) p.Name pd.name
      pipelines pd (h ++ [Call.ListPipelines pd.team]) (pipelineIDAsString p.ID) p.Name (by
        intro f hf
        apply match_by_id_iff_by_name
        intro hne
        apply hpu f hf
        intro hfe
        exact hne ⟨by rw [hfe], by rw [hfe]⟩)
    simp only [resourcePipelineRead, hpipelines]
    rw [hloop]
    simp

/-- C9 as amended, at a concrete input: the team `dev` and the pipeline
`build`, both with id 2, are read alike by id and by name. -/
theorem read_by_id_and_by_name_agree_witness :
    resourceTeamRead twoClient [] { teamToken "" with id := teamIDAsString 2 } =
      resourceTeamRead twoClient [] { teamToken "" with id := "dev" } ∧
    resourcePipelineRead stubAtc twoClient [] { buildByName with id := pipelineIDAsString 2 } =
      resourcePipelineRead stubAtc twoClient [] { buildByName with id := "build" } ∧
    (resourcePipelineRead stubAtc twoClient [] { buildByName with id := "build" }).d.id = "2" := by
  have key := read_by_id_and_by_name_agree stubAtc twoClient [] twoTeams twoPipelines
    (teamToken "") buildByName ⟨2, "dev", []⟩ (buildPipeline true) rfl rfl
    (by decide) (by decide) (by decide) (by decide)
  exact ⟨key.2.1, key.2.2.2, by decide⟩

/-! ## Pipeline Create: the paused toggle -/

/-- C10 (the claim fails): the desired state is paused, the server reports
the new pipeline as paused already, and Create succeeds without any
PausePipeline call. -/
theorem create_paused_without_pause_call_example :
    (newBuild true).paused = true ∧
    (resourcePipelineCreate (createdClient true) [] (newBuild true)).err = none ∧
    (resourcePipelineCreate (createdClient true) [] (newBuild true)).calls.countP
      Call.isPausePipeline = 0 ∧
    (resourcePipelineCreate (createdClient true) [] (newBuild true)).calls.countP
      Call.isUnpausePipeline = 0 := by
  decide

theorem createPausedStep_calls_of_paused {Cfg : Type} (c : Client Cfg) (h : List Call)
    (team : String) (pipeline : Pipeline) :
    (createPausedStep c h team true pipeline).2 =
      if pipeline.Paused = true then h else h ++ [Call.PausePipeline team pipeline.Name] := by
  simp only [createPausedStep, pausedToggle]
  split_ifs <;> simp_all

theorem createPublicStep_calls {Cfg : Type} (c : Client Cfg) (h : List Call)
    (team : String) (isPublic : Bool) (pipeline : Pipeline) :
    (createPublicStep c h team isPublic pipeline).2 = h ∨
    (createPublicStep c h team isPublic pipeline).2 = h ++ [Call.ExposePipeline team pipeline.Name] ∨
    (createPublicStep c h team isPublic pipeline).2 = h ++ [Call.HidePipeline team pipeline.Name] := by
  simp only [createPublicStep, publicToggle]
  split_ifs <;> simp

theorem resourcePipelineCreate_calls_of_ok {Cfg : Type} (c : Client Cfg) (h : List Call)
    (d : PipelineData) (hok : (resourcePipelineCreate c h d).err = none) :
    (resourcePipelineCreate c h d).calls =
      (createPublicStep c
        (createPausedStep c
          (h ++ [Call.Pipeline d.team d.name] ++
            [Call.CreateOrUpdatePipelineConfig d.team d.name "1" d.config false] ++
            [Call.Pipeline d.team d.name] ++ [Call.PipelineConfig d.team d.name])
          d.team d.paused
          (c.Pipeline (h ++ [Call.Pipeline d.team d.name] ++
            [Call.CreateOrUpdatePipelineConfig d.team d.name "1" d.config false])
            d.team d.name).pipeline).2
        d.team d.isPublic
        (c.Pipeline (h ++ [Call.Pipeline d.team d.name] ++
          [Call.CreateOrUpdatePipelineConfig d.team d.name "1" d.config false])
          d.team d.name).pipeline).2 ∧
    (createPausedStep c
      (h ++ [Call.Pipeline d.team d.name] ++
        [Call.CreateOrUpdatePipelineConfig d.team d.name "1" d.config false] ++
        [Call.Pipeline d.team d.name] ++ [Call.PipelineConfig d.team d.name])
      d.team d.paused
      (c.Pipeline (h ++ [Call.Pipeline d.team d.name] ++
        [Call.CreateOrUpdatePipelineConfig d.team d.name "1" d.config false])
        d.team d.name).pipeline).1 = none := by
  simp only [resourcePipelineCreate] at hok ⊢
  split_ifs at hok ⊢ <;> simp_all

/-- C10 as amended: a successful Create with desired paused = true issues
no UnpausePipeline call, and it issues exactly one PausePipeline call when
the pipeline looked up after the write is reported as not paused, and none
when it is reported as paused. -/
theorem resourcePipelineCreate_paused_toggle {Cfg : Type} (c : Client Cfg) (h : List Call)
    (d : PipelineData) (hpaused : d.paused = true)
    (hok : (resourcePipelineCreate c h d).err = none) :
    (resourcePipelineCreate c h d).calls.countP Call.isUnpausePipeline =
      h.countP Call.isUnpausePipeline ∧
    (resourcePipelineCreate c h d).calls.countP Call.isPausePipeline =
      h.countP Call.isPausePipeline +
        (if (c.Pipeline (h ++ [Call.Pipeline d.team d.name,
            Call.CreateOrUpdatePipelineConfig d.team d.name "1" d.config false])
            d.team d.name).pipeline.Paused = true then 0 else 1) := by
  have hcalls := (resourcePipelineCreate_calls_of_ok c h d hok).1
  rw [hpaused] at hcalls
  have happ : h ++ [Call.Pipeline d.team d.name,
      Call.CreateOrUpdatePipelineConfig d.team d.name "1" d.config false] =
      h ++ [Call.Pipeline d.team d.name] ++
        [Call.CreateOrUpdatePipelineConfig d.team d.name "1" d.config false] := by simp
  rw [happ, hcalls]
  generalize (c.Pipeline (h ++ [Call.Pipeline d.team d.name] ++
    [Call.CreateOrUpdatePipelineConfig d.team d.name "1" d.config false])
    d.team d.name).pipeline = pipeline
  have hp := createPausedStep_calls_of_paused c
    (h ++ [Call.Pipeline d.team d.name] ++
      [Call.CreateOrUpdatePipelineConfig d.team d.name "1" d.config false] ++
      [Call.Pipeline d.team d.name] ++ [Call.PipelineConfig d.team d.name]) d.team pipeline
  rcases createPublicStep_calls c (createPausedStep c
    (h ++ [Call.Pipeline d.team d.name] ++
      [Call.CreateOrUpdatePipelineConfig d.team d.name "1" d.config false] ++
      [Call.Pipeline d.team d.name] ++ [Call.PipelineConfig d.team d.name])
    d.team true pipeline).2 d.team d.isPublic pipeline with e | e | e <;>
  · rw [e, hp]
    by_cases hpp : pipeline.Paused = true <;>
      simp [hpp, List.countP_append, Call.isPausePipeline, Call.isUnpausePipeline]

/-- C10 as amended, at the scenario of the specification with a server that
reports the new pipeline as not paused: one PausePipeline call, no
UnpausePipeline call. -/
theorem resourcePipelineCreate_paused_toggle_witness :
    (resourcePipelineCreate (createdClient false) [] (newBuild true)).calls.countP
      Call.isUnpausePipeline = 0 ∧
    (resourcePipelineCreate (createdClient false) [] (newBuild true)).calls.countP
      Call.isPausePipeline = 1 :=
  resourcePipelineCreate_paused_toggle (createdClient false) [] (newBuild true) rfl
    (by decide)

/-! ## Pipeline Read: config preservation -/

theorem pipelineReadLoop_of_resolve {Cfg : Type} (atc : Atc Cfg) (c : Client Cfg)
    (team id name : String) (ps : List Pipeline) (d : PipelineData) (h : List Call)
    (p : Pipeline) (hres : specResolve Pipeline.ID Pipeline.Name id ps name = some p) :
    (id = pipelineIDAsString p.ID ∨ id = p.Name ∨ (name ≠ "" ∧ name = p.Name)) ∧
    pipelineReadLoop atc c team id name ps d h =
      pipelineReadLoop atc c team id name [p] d h := by
  induction ps with
  | nil => simp [specResolve] at hres
  | cons q rest ih =>
    by_cases hm : id = pipelineIDAsString q.ID ∨ id = q.Name ∨ (name ≠ "" ∧ name = q.Name)
    · have hm2 : intD q.ID = id ∨ q.Name = id ∨ (name ≠ "" ∧ q.Name = name) := by
        rcases hm with h1 | h1 | ⟨h1, h2⟩
        · exact Or.inl h1.symm
        · exact Or.inr (Or.inl h1.symm)
        · exact Or.inr (Or.inr ⟨h1, h2.symm⟩)
      have hs : specResolve Pipeline.ID Pipeline.Name id (q :: rest) name = some q := by
        simp [specResolve, List.find?_cons, hm2]
      have hpq : q = p := Option.some.inj (hs.symm.trans hres)
      subst hpq
      refine ⟨hm, ?_⟩
      simp only [pipelineReadLoop, if_pos hm]
    · have hm2 : ¬ (intD q.ID = id ∨ q.Name = id ∨ (name ≠ "" ∧ q.Name = name)) := by
        intro h0
        apply hm
        rcases h0 with h1 | h1 | ⟨h1, h2⟩
        · exact Or.inl h1.symm
        · exact Or.inr (Or.inl h1.symm)
        · exact Or.inr (Or.inr ⟨h1, h2.symm⟩)
      have hs : specResolve Pipeline.ID Pipeline.Name id (q :: rest) name =
          specResolve Pipeline.ID Pipeline.Name id rest name := by
        simp [specResolve, List.find?_cons, hm2]
      rw [hs] at hres
      obtain ⟨h1, h2⟩ := ih hres
      refine ⟨h1, ?_⟩
      rw [← h2]
      simp only [pipelineReadLoop, if_neg hm]

/-- C11: let Read match the pipeline `p`, parse the last-known local config
and fetch the server's current config without error. When the diff oracle
reports no difference between the two, Read returns no error and leaves the
local config and config_version exactly as they were. When it reports a
difference, config becomes the serialisation of the server's config and
config_version the server's version token. -/
theorem resourcePipelineRead_config_preservation {Cfg : Type} (atc : Atc Cfg) (c : Client Cfg)
    (h : List Call) (d : PipelineData) (pipelines : List Pipeline) (p : Pipeline)
    (last current : Cfg) (version : String) (found : Bool)
    (hlist : c.ListPipelines h d.team = ⟨pipelines, none⟩)
    (hmatch : specResolve Pipeline.ID Pipeline.Name d.id pipelines d.name = some p)
    (hparse : atc.UnmarshalConfig d.config = (last, none))
    (hfetch : c.PipelineConfig (h ++ [Call.ListPipelines d.team]) d.team p.Name =
      ⟨current, version, found, none⟩) :
    (atc.Diff last current = false →
      (resourcePipelineRead atc c h d).err = none ∧
      (resourcePipelineRead atc c h d).d.config = d.config ∧
      (resourcePipelineRead atc c h d).d.config_version = d.config_version) ∧
    (atc.Diff last current = true →
      ∀ text, atc.Marshal current = (text, none) →
        (resourcePipelineRead atc c h d).err = none ∧
        (resourcePipelineRead atc c h d).d.config = text ∧
        (resourcePipelineRead atc c h d).d.config_version = version) := by
  obtain ⟨hm, hloop⟩ := pipelineReadLoop_of_resolve atc c d.team d.id d.name pipelines d
    (h ++ [Call.ListPipelines d.team]) p hmatch
  have hread : resourcePipelineRead atc c h d =
      pipelineReadLoop atc c d.team d.id d.name [p] d (h ++ [Call.ListPipelines d.team]) := by
    rw [← hloop]
    simp [resourcePipelineRead, hlist]
  rw [hread]
  constructor
  · intro hdiff
    simp [pipelineReadLoop, hm, hparse, hfetch, hdiff]
  · intro hdiff text hmarshal
    simp [pipelineReadLoop, hm, hparse, hfetch, hdiff, hmarshal]

/-- C11 at concrete inputs: a local config equal to the server's keeps its
text and its version 1 although the server is at version 7; a local config
that differs is replaced by the server's text and version. -/
theorem resourcePipelineRead_config_preservation_witness :
    ((resourcePipelineRead stubAtc (versionedClient "7" "8") [] opsBuild).d.config = "jobs: []" ∧
      (resourcePipelineRead stubAtc (versionedClient "7" "8") [] opsBuild).d.config_version =
        "1") ∧
    ((resourcePipelineRead stubAtc (versionedClient "7" "8") [] buildConfigChanged).d.config =
        "jobs: []" ∧
      (resourcePipelineRead stubAtc (versionedClient "7" "8") []
        buildConfigChanged).d.config_version = "7") := by
  have same := (resourcePipelineRead_config_preservation stubAtc (versionedClient "7" "8") []
    opsBuild [buildPipeline false] (buildPipeline false) "jobs: []" "jobs: []" "7" true
    rfl (by decide) rfl rfl).1 (by decide)
  have differ := (resourcePipelineRead_config_preservation stubAtc (versionedClient "7" "8") []
    buildConfigChanged [buildPipeline false] (buildPipeline false) "jobs: [a]" "jobs: []" "7"
    true rfl (by decide) rfl rfl).2 (by decide) "jobs: []" rfl
  exact ⟨same.2, differ.2⟩

/-! ## Pipeline Update: warnings in the error message -/

theorem foldl_append_singleton {α β : Type} (f : α → β) (l : List α) (init : List β) :
    l.foldl (fun acc a => acc ++ [f a]) init = init ++ l.map f := by
  induction l generalizing init with
  | nil => simp
  | cons a rest ih => simp [ih]

theorem warningsStr_eq (warnings : List ConfigWarning) :
    warningsStr warnings =
      List.replicate warnings.length "" ++
        warnings.map (fun w => "[" ++ w.Typ ++ "] " ++ w.Message) := by
  unfold warningsStr
  exact foldl_append_singleton _ _ _

theorem intercalate_go_append (x acc s : String) (l : List String) :
    String.intercalate.go (x ++ acc) s l = x ++ String.intercalate.go acc s l := by
  induction l generalizing acc with
  | nil => rfl
  | cons a rest ih =>
    simp only [String.intercalate.go]
    rw [String.append_assoc, String.append_assoc, ih, String.append_assoc]

theorem intercalate_empty_cons (s a : String) (rest : List String) :
    s.intercalate ("" :: a :: rest) = s ++ s.intercalate (a :: rest) := by
  simp only [String.intercalate, String.intercalate.go]
  have h0 : ("" : String) ++ s = s := String.empty_append s
  rw [h0, intercalate_go_append]

theorem join_replicate_succ (s : String) (k : Nat) :
    String.join (List.replicate (k + 1) s) = s ++ String.join (List.replicate k s) := by
  apply String.ext
  simp [String.data_join, List.replicate_succ]

theorem intercalate_replicate_empty (s a : String) (rest : List String) (k : Nat) :
    s.intercalate (List.replicate k "" ++ a :: rest) =
      String.join (List.replicate k s) ++ s.intercalate (a :: rest) := by
  induction k with
  | zero =>
    have h0 : String.join (List.replicate 0 s) = "" := rfl
    rw [h0, String.empty_append]
    rfl
  | succ k ih =>
    rw [join_replicate_succ, String.append_assoc, ← ih]
    cases k with
    | zero => exact intercalate_empty_cons s a rest
    | succ j => exact intercalate_empty_cons s "" (List.replicate j "" ++ a :: rest)

/-- C14: let Update reach the config write and let that write fail, by an
error or by reporting neither created nor updated, with the warnings `ws`.
Then the error of Update ends in the join by `, ` of a list of twice as many
entries as `ws`: its first entries, as many as `ws` has, are empty strings
and the entries after them are the warnings rendered as `[type] message` in
their order; when `ws` is not empty the joined text therefore begins with
one separator `, ` per warning, followed by the join of the renderings. -/
theorem resourcePipelineUpdate_warnings_in_error {Cfg : Type} (atc : Atc Cfg) (c : Client Cfg)
    (h h1 h2 h3 : List Call) (d : PipelineData) (existing : Cfg) (token : String)
    (version : Int)
    (hrename : updateRenameStep c h d = (none, h1))
    (hpaused : updatePausedStep c h1 d = (none, h2))
    (hpublic : updatePublicStep c h2 d = (none, h3))
    (hchanged : d.oldConfig ≠ d.config)
    (hparse : (atc.UnmarshalConfig d.config).2 = none)
    (hobserved : c.PipelineConfig h3 d.team d.name = ⟨existing, token, true, none⟩)
    (hatoi : atoi token = (version, none))
    (hdiff : atc.Diff existing (atc.UnmarshalConfig d.config).1 = true)
    (hfailed : (c.CreateOrUpdatePipelineConfig (h3 ++ [Call.PipelineConfig d.team d.name])
        d.team d.name token d.config false).err ≠ none ∨
      ((c.CreateOrUpdatePipelineConfig (h3 ++ [Call.PipelineConfig d.team d.name])
        d.team d.name token d.config false).created = false ∧
       (c.CreateOrUpdatePipelineConfig (h3 ++ [Call.PipelineConfig d.team d.name])
        d.team d.name token d.config false).updated = false)) :
    (resourcePipelineUpdate atc c h d).err =
      some ("unable to update configuration of pipeline " ++ quoted d.name ++
        " of team " ++ quoted d.team ++ " (current version: " ++ intD version ++ "): " ++
        errV (c.CreateOrUpdatePipelineConfig (h3 ++ [Call.PipelineConfig d.team d.name])
          d.team d.name token d.config false).err ++ ", " ++
        ", ".intercalate (warningsStr
          (c.CreateOrUpdatePipelineConfig (h3 ++ [Call.PipelineConfig d.team d.name])
            d.team d.name token d.config false).warnings)) ∧
    ∀ ws, ws = (c.CreateOrUpdatePipelineConfig (h3 ++ [Call.PipelineConfig d.team d.name])
        d.team d.name token d.config false).warnings →
      (warningsStr ws).length = 2 * ws.length ∧
      (warningsStr ws).take ws.length = List.replicate ws.length "" ∧
      (warningsStr ws).drop ws.length =
        ws.map (fun w => "[" ++ w.Typ ++ "] " ++ w.Message) ∧
      (0 < ws.length →
        ", ".intercalate (warningsStr ws) =
          String.join (List.replicate ws.length ", ") ++
            ", ".intercalate (ws.map (fun w => "[" ++ w.Typ ++ "] " ++ w.Message))) := by
  constructor
  · have hstep : (updateConfigStep atc c h3 d).err =
        some ("unable to update configuration of pipeline " ++ quoted d.name ++
          " of team " ++ quoted d.team ++ " (current version: " ++ intD version ++ "): " ++
          errV (c.CreateOrUpdatePipelineConfig (h3 ++ [Call.PipelineConfig d.team d.name])
            d.team d.name token d.config false).err ++ ", " ++
          ", ".intercalate (warningsStr
            (c.CreateOrUpdatePipelineConfig (h3 ++ [Call.PipelineConfig d.team d.name])
              d.team d.name token d.config false).warnings)) := by
      simp only [updateConfigStep, hobserved, hatoi, hdiff, hparse]
      simp [hchanged, hfailed]
    have hupd : resourcePipelineUpdate atc c h d = updateConfigStep atc c h3 d := by
      simp [resourcePipelineUpdate, hrename, hpaused, hpublic, hstep]
    rw [hupd, hstep]
  · intro ws _
    have hshape := warningsStr_eq ws
    refine ⟨?_, ?_, ?_, ?_⟩
    · rw [hshape]
      simp
      omega
    · rw [hshape]
      simp
    · rw [hshape]
      simp
    · intro hpos
      rw [hshape]
      cases ws with
      | nil => simp at hpos
      | cons w rest =>
        simp only [List.map_cons]
        exact intercalate_replicate_empty ", " _ _ _

/-- C14 at a concrete input: the write fails with two warnings and the
message shows two leading separators before the rendered warnings. -/
theorem resourcePipelineUpdate_warnings_in_error_witness :
    (resourcePipelineUpdate stubAtc writeFailsClient [] buildConfigChanged).err =
      some ("unable to update configuration of pipeline \"build\" of team \"ops\" " ++
        "(current version: 7): boom, , , [deprecation] old syntax, [pipeline] no jobs") ∧
    warningsStr [⟨"deprecation", "old syntax"⟩, ⟨"pipeline", "no jobs"⟩] =
      ["", "", "[deprecation] old syntax", "[pipeline] no jobs"] := by
  have key := resourcePipelineUpdate_warnings_in_error stubAtc writeFailsClient [] [] [] []
    buildConfigChanged "jobs: []" "7" 7 (by decide) (by decide) (by decide) (by decide)
    (by decide) rfl (by decide) (by decide) (Or.inl (by decide))
  refine ⟨?_, by decide⟩
  rw [key.1]
  decide

/-! ## Fly configuration: location of the file -/

theorem utf8ByteSize_pos_of_ne_empty (p : String) (hp : p ≠ "") : 0 < p.utf8ByteSize := by
  obtain ⟨data⟩ := p
  cases data with
  | nil => exact absurd rfl hp
  | cons ch rest =>
    show 0 < String.utf8ByteSize.go (ch :: rest)
    simp only [String.utf8ByteSize.go]
    have := Char.utf8Size_pos ch
    omega

/-- With `FLYRC` set to a non-empty path, `setFlyRcLocation` stores that
path whatever `user.Current` would answer, `ImportConfig` returns and
touches no other path, and it leaves the path in `Filename` whenever it
stops before decoding or the decoded document carries no key `filename`. -/
theorem importConfig_location_from_env (y : Yaml) (os : Os) (rc : FlyRc) (p : String)
    (henv : os.LookupEnv "FLYRC" = (p, true)) (hp : p ≠ "") :
    rc.setFlyRcLocation os = .done { rc with Filename := p } ∧
    ∃ res, rc.ImportConfig y os = .done res ∧
      (res.accessed = [FsCall.Stat p] ∨ res.accessed = [FsCall.Stat p, FsCall.ReadFile p]) ∧
      ((os.Stat p ≠ none ∨ (os.ReadFile p).2 ≠ none ∨
        (y.Decode (os.ReadFile p).1).1.filename = none) → res.rc.Filename = p) := by
  have hloc : rc.setFlyRcLocation os = .done { rc with Filename := p } := by
    simp [FlyRc.setFlyRcLocation, henv, utf8ByteSize_pos_of_ne_empty p hp]
  refine ⟨hloc, ?_⟩
  simp only [FlyRc.ImportConfig, hloc, FlyRc.readFlyConfig]
  by_cases hstat : os.Stat p ≠ none
  · simp [hstat]
  · by_cases hread : (os.ReadFile p).2 ≠ none
    · simp [hstat, hread]
    · simp only [if_neg hstat, if_neg hread]
      refine ⟨_, rfl, Or.inr rfl, ?_⟩
      rintro (h1 | h1 | h1)
      · exact absurd h1 hstat
      · exact absurd h1 hread
      · simp [yamlUnmarshal, h1]

/-- C12 (code as written): `FLYRC` holds the non-empty path
`./testdata/flyrc.yml` and the file at that path carries a top-level key
`filename`. `ImportConfig` stores the path, reads that file and returns no
error, and leaves `Filename` equal to the value `/elsewhere` of the key. -/
theorem importConfig_filename_overwritten_by_document :
    (envOs "filename: /elsewhere").LookupEnv "FLYRC" = ("./testdata/flyrc.yml", true) ∧
    emptyFlyRc.setFlyRcLocation (envOs "filename: /elsewhere") =
      .done ⟨"./testdata/flyrc.yml", []⟩ ∧
    emptyFlyRc.ImportConfig stubYaml (envOs "filename: /elsewhere") =
      .done ⟨⟨"/elsewhere", []⟩, none,
        [FsCall.Stat "./testdata/flyrc.yml", FsCall.ReadFile "./testdata/flyrc.yml"]⟩ := by
  decide

/-- Without `FLYRC`, `setFlyRcLocation` never ends with the fallback in
`Filename`: it panics on a nil user, and otherwise it stores the path
below the home directory, also after a failed lookup. -/
theorem setFlyRcLocation_without_env (os : Os) (rc : FlyRc)
    (henv : (os.LookupEnv "FLYRC").2 = false) :
    (os.Current.1 = none ∧
      rc.setFlyRcLocation os =
        .panicked "runtime error: invalid memory address or nil pointer dereference") ∨
    ∃ u, os.Current.1 = some u ∧
      rc.setFlyRcLocation os = .done { rc with Filename := u.HomeDir ++ "/.flyrc" } := by
  cases hcu : os.Current.1 with
  | none =>
    left
    simp [FlyRc.setFlyRcLocation, henv, hcu]
  | some u =>
    right
    refine ⟨u, rfl, ?_⟩
    simp only [FlyRc.setFlyRcLocation, henv, hcu]
    by_cases herr : os.Current.2 ≠ none <;> simp [herr]

/-- C13 (code as written): `FLYRC` is not set and `user.Current` fails with
a nil user. `setFlyRcLocation` does not return with `Filename` equal to
`.flyrc`: after storing the fallback it reads the home directory through
the nil pointer and panics. -/
theorem setFlyRcLocation_panics_when_user_lookup_fails :
    (noUserOs.LookupEnv "FLYRC").2 = false ∧
    noUserOs.Current = (none, some "user: Current requires cgo") ∧
    emptyFlyRc.setFlyRcLocation noUserOs =
      .panicked "runtime error: invalid memory address or nil pointer dereference" ∧
    emptyFlyRc.setFlyRcLocation noUserOs ≠ .done ⟨".flyrc", []⟩ := by
  decide

end Concourse
